import Mathlib

/-!
Verification of the CANopen slave-node protocol engine (`canopen-rust`).

This file contains a shallow embedding, in Lean 4, of the parts of the
source that the verified properties talk about:

* the bit-level PDO payload codec (`pack_data` / `unpack_data`, `src/pdo.rs`);
* the PDO trigger predicate (`should_trigger_pdo`, `src/pdo.rs`);
* the object dictionary (`src/object_directory.rs`): variables, arrays
  (with compact sub-object auto-materialisation), records, typed
  `get`/`set` with access checks;
* the SDO server state machine (`src/sdo_server.rs`): expedited, segmented
  and block transfers, the PDO parameter re-derivation hook
  (`set_value_with_check` / `update`), and the abort path of
  `dispatch_sdo_request`;
* the NMT reset path (`process_nmt_frame` / `reset_object_directory_range`,
  `src/node.rs`) together with the TPDO burst fired on `NodeStart`.

Modelling conventions:

* Machine integers are `Nat` with explicit wrapping (`% 2^w`) at the
  points where the source relies on fixed-width behaviour; shifts on
  `u64`/`u16` use the release-mode wrapping semantics of Rust
  (shift amount taken mod the bit width, result truncated to the width).
* Rust hash maps are embedded as functions into `Option`; vectors are
  `List Nat` whose elements are bytes.
* Panics (`todo!()`, `unwrap()` on `None`, out-of-bounds indexing,
  `expect` on transmit) are represented by an `Option` result at the level
  of the enclosing operation: `none` means the source panics.
* Fallible operations return `Except CanAbortCode` threaded with the
  mutated state, mirroring the `&mut self` methods of the source.
-/

/-! ## Byte-level helpers -/

/-- Little-endian decoding of a byte list, as done by `u*::from_le_bytes`. -/
def le_bytes_to_nat : List Nat → Nat
  | [] => 0
  | b :: rest => b + 256 * le_bytes_to_nat rest

/-- `x.to_le_bytes()` for a `len`-byte unsigned integer. -/
def to_le_bytes : Nat → Nat → List Nat
  | 0, _ => []
  | len + 1, x => (x % 256) :: to_le_bytes len (x / 256)

/-- `ByteConvertible::from_bytes` for a fixed-width integer: the source
returns `0` whenever the byte slice does not have exactly the expected
length (`src/value.rs`). -/
def value_to (len : Nat) (v : List Nat) : Nat :=
  if v.length = len then le_bytes_to_nat v else 0

/-- Rust `u64` left shift in release mode: the shift amount is taken
mod 64 and the result is truncated to 64 bits. -/
def rustShl64 (a s : Nat) : Nat := (a <<< (s % 64)) % 2 ^ 64

/-- Rust `u64` right shift in release mode. -/
def rustShr64 (a s : Nat) : Nat := a >>> (s % 64)

/-- The mask `(1u64 << bits) - 1` computed with Rust `u64` semantics:
for `bits = 64` the shift wraps and the mask collapses to `0`. -/
def mask64 (bits : Nat) : Nat := rustShl64 1 bits - 1

/-! ## CAN frames -/

/-- A CAN 2.0A frame: an 11-bit identifier and up to 8 data bytes. -/
structure CanFrame where
  cob_id : Nat
  data : List Nat
  deriving Repr, DecidableEq

/-- `util::flatten`: concatenates the slices, truncates to 8 bytes and
zero-pads to exactly 8 bytes (`src/util.rs`). -/
def flatten (slices : List (List Nat)) : List Nat :=
  let joined := slices.flatten
  joined.take 8 ++ List.replicate (8 - joined.length) 0

/-- Modelled from the spec: `genf_and_padding` builds a frame on the given
COB-ID with the payload truncated or zero-padded to exactly 8 bytes
(the helper itself lives in a utility module that is not part of the
source tree; §4.1 `create_frame_with_padding`). -/
def genf_and_padding (cob_id : Nat) (data : List Nat) : CanFrame :=
  ⟨cob_id, data.take 8 ++ List.replicate (8 - data.length) 0⟩

/-! ## PDO payload codec (`src/pdo.rs`) -/

/-- `vec_to_u64` (`src/pdo.rs`): big-endian fold of the bytes into a
`u64`, truncating on overflow. -/
def vec_to_u64 (v : List Nat) : Nat :=
  v.foldl (fun res x => ((res <<< 8) % 2 ^ 64) ||| x) 0

/-- The merged accumulator of `pack_data`: `merged = (merged << bits) |
(data & ((1 << bits) - 1))` over the list, with `u64` semantics. -/
def pack_merged (vec : List (Nat × Nat)) : Nat :=
  vec.foldl (fun merged p => rustShl64 merged p.2 ||| (p.1 &&& mask64 p.2)) 0

/-- The running `total_bits` of `pack_data`, accumulated in a `u8`. -/
def pack_total_bits (vec : List (Nat × Nat)) : Nat :=
  vec.foldl (fun t p => (t + p.2) % 256) 0

/-- The byte-emission loop of `pack_data`: peels `merged` from the least
significant byte, writing right-to-left (big-endian result). -/
def be_bytes : Nat → Nat → List Nat
  | _, 0 => []
  | merged, n + 1 => be_bytes (merged >>> 8) n ++ [merged % 256]

/-- `pack_data` (`src/pdo.rs`): packs `(value, bits)` pairs MSB-first into
`ceil(total_bits / 8)` bytes. -/
def pack_data (vec : List (Nat × Nat)) : List Nat :=
  let total_bits := pack_total_bits vec
  let total_bytes := total_bits / 8 + if total_bits % 8 > 0 then 1 else 0
  be_bytes (pack_merged vec) total_bytes

/-- The loop of `unpack_data`, processing the width list from its last
element: returns the decoded pairs together with the remaining shifted
accumulator. -/
def unpack_core (data : Nat) : List Nat → List (Nat × Nat) × Nat
  | [] => ([], data)
  | b :: rest =>
    let (tail, d) := unpack_core data rest
    ((d &&& mask64 b, b) :: tail, rustShr64 d b)

/-- `unpack_data` (`src/pdo.rs`): splits the bytes into fields of the
given bit widths, inverting `pack_data`. -/
def unpack_data (vec : List Nat) (bits : List Nat) : List (Nat × Nat) :=
  (unpack_core (vec_to_u64 vec) bits).1

/-! ## PDO trigger predicate (`src/pdo.rs`) -/

/-- `NodeEvent` (`src/node.rs`). -/
inductive NodeEvent where
  | RegularTimerEvent
  | NodeStart
  | Unused
  deriving Repr, DecidableEq

/-- `should_trigger_pdo` (`src/pdo.rs`), with the early returns of the
source folded into nested conditionals. -/
def should_trigger_pdo (is_sync : Bool) (event : NodeEvent)
    (transmission_type event_times count : Nat) : Bool :=
  if is_sync then
    if transmission_type = 0 ∨ transmission_type > 240 ∨
        count % transmission_type ≠ 0 then
      false
    else
      true
  else
    match event with
    | NodeEvent.NodeStart => true
    | _ =>
      if transmission_type ≠ 0xFE ∧ transmission_type ≠ 0xFF then
        false
      else if event_times = 0 ∨ count % event_times ≠ 0 then
        false
      else
        true

/-! ## Abort codes (`src/error.rs`) -/

/-- The CiA 301 SDO abort conditions used by the server
(`AbortCode` in `src/error.rs`, imported as `CanAbortCode` by the SDO
server). -/
inductive CanAbortCode where
  | ToggleBitNotAlternated
  | SdoProtocolTimedOut
  | CommandSpecifierNotValidOrUnknown
  | InvalidBlockSize
  | InvalidSequenceNumber
  | CRCError
  | OutOfMemory
  | UnsupportedAccessToObject
  | AttemptToReadWriteOnlyObject
  | AttemptToWriteReadOnlyObject
  | ObjectDoesNotExistInObjectDictionary
  | ObjectCannotBeMappedToPDO
  | ExceedPDOSize
  | GeneralParameterIncompatibility
  | GeneralInternalIncompatibility
  | HardwareError
  | DataTypeMismatchLengthMismatch
  | DataTypeMismatchLengthTooHigh
  | DataTypeMismatchLengthTooLow
  | SubIndexDoesNotExist
  | ValueRangeExceeded
  | ValueWrittenTooHigh
  | ValueWrittenTooLow
  | MaxValueLessThanMinValue
  | GeneralError
  | DataTransferOrStoreFailed
  | DataTransferOrStoreFailedDueToLocalControl
  | DataTransferOrStoreFailedDueToDeviceState
  | ObjectDictionaryGenerationFailedOrNotPresent
  | Other
  deriving Repr, DecidableEq

/-- `AbortCode::code` (`src/error.rs`): the 32-bit CiA abort code. -/
def CanAbortCode.code : CanAbortCode → Nat
  | .ToggleBitNotAlternated => 0x05030000
  | .SdoProtocolTimedOut => 0x05040000
  | .CommandSpecifierNotValidOrUnknown => 0x05040001
  | .InvalidBlockSize => 0x05040002
  | .InvalidSequenceNumber => 0x05040003
  | .CRCError => 0x05040004
  | .OutOfMemory => 0x05040005
  | .UnsupportedAccessToObject => 0x06010000
  | .AttemptToReadWriteOnlyObject => 0x06010001
  | .AttemptToWriteReadOnlyObject => 0x06010002
  | .ObjectDoesNotExistInObjectDictionary => 0x06020000
  | .ObjectCannotBeMappedToPDO => 0x06040041
  | .ExceedPDOSize => 0x06040042
  | .GeneralParameterIncompatibility => 0x06040043
  | .GeneralInternalIncompatibility => 0x06040047
  | .HardwareError => 0x06060000
  | .DataTypeMismatchLengthMismatch => 0x06070010
  | .DataTypeMismatchLengthTooHigh => 0x06070012
  | .DataTypeMismatchLengthTooLow => 0x06070013
  | .SubIndexDoesNotExist => 0x06090011
  | .ValueRangeExceeded => 0x06090030
  | .ValueWrittenTooHigh => 0x06090031
  | .ValueWrittenTooLow => 0x06090032
  | .MaxValueLessThanMinValue => 0x06090036
  | .GeneralError => 0x08000000
  | .DataTransferOrStoreFailed => 0x08000020
  | .DataTransferOrStoreFailedDueToLocalControl => 0x08000021
  | .DataTransferOrStoreFailedDueToDeviceState => 0x08000022
  | .ObjectDictionaryGenerationFailedOrNotPresent => 0x08000023
  | .Other => 0x00000000

/-! ## CRC-CCITT (`src/util.rs`) -/

/-- The 256-entry CRC-CCITT lookup table `CCITT_HASH` (`src/util.rs`). -/
def CCITT_HASH : List Nat := [
  0x0000, 0x1021, 0x2042, 0x3063, 0x4084, 0x50a5, 0x60c6, 0x70e7, 0x8108,
  0x9129, 0xa14a, 0xb16b, 0xc18c, 0xd1ad, 0xe1ce, 0xf1ef, 0x1231, 0x0210,
  0x3273, 0x2252, 0x52b5, 0x4294, 0x72f7, 0x62d6, 0x9339, 0x8318, 0xb37b,
  0xa35a, 0xd3bd, 0xc39c, 0xf3ff, 0xe3de, 0x2462, 0x3443, 0x0420, 0x1401,
  0x64e6, 0x74c7, 0x44a4, 0x5485, 0xa56a, 0xb54b, 0x8528, 0x9509, 0xe5ee,
  0xf5cf, 0xc5ac, 0xd58d, 0x3653, 0x2672, 0x1611, 0x0630, 0x76d7, 0x66f6,
  0x5695, 0x46b4, 0xb75b, 0xa77a, 0x9719, 0x8738, 0xf7df, 0xe7fe, 0xd79d,
  0xc7bc, 0x48c4, 0x58e5, 0x6886, 0x78a7, 0x0840, 0x1861, 0x2802, 0x3823,
  0xc9cc, 0xd9ed, 0xe98e, 0xf9af, 0x8948, 0x9969, 0xa90a, 0xb92b, 0x5af5,
  0x4ad4, 0x7ab7, 0x6a96, 0x1a71, 0x0a50, 0x3a33, 0x2a12, 0xdbfd, 0xcbdc,
  0xfbbf, 0xeb9e, 0x9b79, 0x8b58, 0xbb3b, 0xab1a, 0x6ca6, 0x7c87, 0x4ce4,
  0x5cc5, 0x2c22, 0x3c03, 0x0c60, 0x1c41, 0xedae, 0xfd8f, 0xcdec, 0xddcd,
  0xad2a, 0xbd0b, 0x8d68, 0x9d49, 0x7e97, 0x6eb6, 0x5ed5, 0x4ef4, 0x3e13,
  0x2e32, 0x1e51, 0x0e70, 0xff9f, 0xefbe, 0xdfdd, 0xcffc, 0xbf1b, 0xaf3a,
  0x9f59, 0x8f78, 0x9188, 0x81a9, 0xb1ca, 0xa1eb, 0xd10c, 0xc12d, 0xf14e,
  0xe16f, 0x1080, 0x00a1, 0x30c2, 0x20e3, 0x5004, 0x4025, 0x7046, 0x6067,
  0x83b9, 0x9398, 0xa3fb, 0xb3da, 0xc33d, 0xd31c, 0xe37f, 0xf35e, 0x02b1,
  0x1290, 0x22f3, 0x32d2, 0x4235, 0x5214, 0x6277, 0x7256, 0xb5ea, 0xa5cb,
  0x95a8, 0x8589, 0xf56e, 0xe54f, 0xd52c, 0xc50d, 0x34e2, 0x24c3, 0x14a0,
  0x0481, 0x7466, 0x6447, 0x5424, 0x4405, 0xa7db, 0xb7fa, 0x8799, 0x97b8,
  0xe75f, 0xf77e, 0xc71d, 0xd73c, 0x26d3, 0x36f2, 0x0691, 0x16b0, 0x6657,
  0x7676, 0x4615, 0x5634, 0xd94c, 0xc96d, 0xf90e, 0xe92f, 0x99c8, 0x89e9,
  0xb98a, 0xa9ab, 0x5844, 0x4865, 0x7806, 0x6827, 0x18c0, 0x08e1, 0x3882,
  0x28a3, 0xcb7d, 0xdb5c, 0xeb3f, 0xfb1e, 0x8bf9, 0x9bd8, 0xabbb, 0xbb9a,
  0x4a75, 0x5a54, 0x6a37, 0x7a16, 0x0af1, 0x1ad0, 0x2ab3, 0x3a92, 0xfd2e,
  0xed0f, 0xdd6c, 0xcd4d, 0xbdaa, 0xad8b, 0x9de8, 0x8dc9, 0x7c26, 0x6c07,
  0x5c64, 0x4c45, 0x3ca2, 0x2c83, 0x1ce0, 0x0cc1, 0xef1f, 0xff3e, 0xcf5d,
  0xdf7c, 0xaf9b, 0xbfba, 0x8fd9, 0x9ff8, 0x6e17, 0x7e36, 0x4e55, 0x5e74,
  0x2e93, 0x3eb2, 0x0ed1, 0x1ef0]

/-- `crc16_canopen_with_lut` (`src/util.rs`): table-driven CRC-CCITT with
polynomial 0x1021 and initial value 0x0000. -/
def crc16_canopen_with_lut (bytes : List Nat) : Nat :=
  bytes.foldl
    (fun crc b => CCITT_HASH.getD (((crc >>> 8) ^^^ b) % 256) 0 ^^^
      ((crc <<< 8) % 2 ^ 16))
    0

/-! ## Object dictionary data model (`src/object_directory.rs`, `src/data_type.rs`) -/

/-- `DataType` (`src/data_type.rs`). -/
inductive DataType where
  | Unknown
  | Boolean
  | Integer8
  | Integer16
  | Integer32
  | Unsigned8
  | Unsigned16
  | Unsigned32
  | Real32
  | VisibleString
  | OctetString
  | UnicodeString
  | Domain
  | Real64
  | Integer64
  | Unsigned64
  deriving Repr, DecidableEq

/-- `DataType::size` (`src/data_type.rs`): fixed byte width, `0` for the
variable-length types. -/
def DataType.size : DataType → Nat
  | .Unknown => 0
  | .Boolean => 1
  | .Integer8 => 1
  | .Integer16 => 2
  | .Integer32 => 4
  | .Unsigned8 => 1
  | .Unsigned16 => 2
  | .Unsigned32 => 4
  | .Real32 => 4
  | .VisibleString => 0
  | .OctetString => 0
  | .UnicodeString => 0
  | .Domain => 4
  | .Real64 => 8
  | .Integer64 => 8
  | .Unsigned64 => 8

/-- `AccessType` (`src/object_directory.rs`). -/
structure AccessType where
  read_access : Bool
  write_access : Bool
  deriving Repr, DecidableEq

def AccessType.is_readable (a : AccessType) : Bool := a.read_access

def AccessType.is_writable (a : AccessType) : Bool := a.write_access

/-- `Variable` (`src/object_directory.rs`): a leaf OD entry.  `Value` is
inlined as its byte vector (`default_value` doubles as the current
value). -/
structure Variable where
  name : String
  storage_location : String
  data_type : DataType
  default_value : List Nat
  min : Option (List Nat)
  max : Option (List Nat)
  pdo_mappable : Bool
  access_type : AccessType
  parameter_value : Option (List Nat)
  index : Nat
  sub_index : Nat

/-- `Array` (`src/object_directory.rs`): sub-indexed variables with the
compact sub-object auto-materialisation; the hash maps are embedded as
functions. -/
structure ODArray where
  name : String
  index : Nat
  storage_location : String
  index_to_variable : Nat → Option Variable
  name_to_index : String → Option Nat

/-- `add_member_to_container` (`src/object_directory.rs`) on an array. -/
def ODArray.add_member (a : ODArray) (var : Variable) : ODArray :=
  { a with
    name_to_index := fun s => if s = var.name then some var.sub_index
      else a.name_to_index s
    index_to_variable := fun si => if si = var.sub_index then some var
      else a.index_to_variable si }

/-- `Array::get_mut_variable` (`src/object_directory.rs`): looks up a
sub-index, synthesising a clone of sub-index 1 (renamed
`"{name}_{sub_index}"`) for an absent sub-index in `1..=254`.  Returns
the variable together with the possibly-extended array. -/
def ODArray.get_mut_variable (a : ODArray) (sub_index : Nat) :
    Except CanAbortCode (Variable × ODArray) :=
  match a.index_to_variable sub_index with
  | some var => .ok (var, a)
  | none =>
    if 0 < sub_index ∧ sub_index < 0xFF then
      match a.index_to_variable 1 with
      | some base_var =>
        let new_var := { base_var with
          name := a.name ++ "_" ++ toString sub_index
          sub_index := sub_index }
        .ok (new_var, a.add_member new_var)
      | none => .error .ObjectDoesNotExistInObjectDictionary
    else
      .error .ObjectDoesNotExistInObjectDictionary

/-- `Record` (`src/object_directory.rs`): explicitly-enumerated
sub-variables. -/
structure ODRecord where
  name : String
  index : Nat
  storage_location : String
  index_to_variable : Nat → Option Variable
  name_to_index : String → Option Nat

/-- `Record::get_mut_variable` (`src/object_directory.rs`). -/
def ODRecord.get_mut_variable (r : ODRecord) (sub_index : Nat) :
    Except CanAbortCode Variable :=
  match r.index_to_variable sub_index with
  | some var => .ok var
  | none => .error .ObjectDoesNotExistInObjectDictionary

/-- `ObjectType` (`src/object_directory.rs`). -/
inductive ObjectType where
  | variable (var : Variable)
  | array (arr : ODArray)
  | record (rec : ODRecord)

/-- `ObjectDirectory` (`src/object_directory.rs`); the two hash maps are
embedded as functions. -/
structure ObjectDirectory where
  node_id : Nat
  index_to_object : Nat → Option ObjectType
  name_to_index : String → Option Nat

/-- Writes a variable back at its slot after a mutation through
`get_mut_variable`; in the source this happens in place through the
`&mut Variable` borrow. -/
def ObjectDirectory.update_variable (od : ObjectDirectory) (index sub_index : Nat)
    (var : Variable) : ObjectDirectory :=
  match od.index_to_object index with
  | some (.variable _) =>
    { od with index_to_object := fun k =>
        if k = index then some (.variable var) else od.index_to_object k }
  | some (.array arr) =>
    let arr2 := { arr with index_to_variable := fun si =>
      if si = sub_index then some var else arr.index_to_variable si }
    { od with index_to_object := fun k =>
        if k = index then some (.array arr2) else od.index_to_object k }
  | some (.record rec) =>
    let rec2 := { rec with index_to_variable := fun si =>
      if si = sub_index then some var else rec.index_to_variable si }
    { od with index_to_object := fun k =>
        if k = index then some (.record rec2) else od.index_to_object k }
  | none => od

/-- `ObjectDirectory::get_mut_variable` (`src/object_directory.rs`):
returns the addressed variable and the directory (mutated if an array
sub-entry was materialised). -/
def ObjectDirectory.get_mut_variable (od : ObjectDirectory) (index sub_index : Nat) :
    ObjectDirectory × Except CanAbortCode Variable :=
  match od.index_to_object index with
  | some (.variable var) =>
    if sub_index = 0 then (od, .ok var)
    else (od, .error .SubIndexDoesNotExist)
  | some (.array arr) =>
    match arr.get_mut_variable sub_index with
    | .ok (var, arr2) =>
      ({ od with index_to_object := fun k =>
          if k = index then some (.array arr2) else od.index_to_object k },
        .ok var)
    | .error code => (od, .error code)
  | some (.record rec) => (od, rec.get_mut_variable sub_index)
  | none => (od, .error .ObjectDoesNotExistInObjectDictionary)

/-- `ObjectDirectory::get_variable` (`src/object_directory.rs`): as
`get_mut_variable` plus the readability check. -/
def ObjectDirectory.get_variable (od : ObjectDirectory) (index sub_index : Nat) :
    ObjectDirectory × Except CanAbortCode Variable :=
  match od.get_mut_variable index sub_index with
  | (od2, .ok var) =>
    if ¬ var.access_type.is_readable then
      (od2, .error .AttemptToReadWriteOnlyObject)
    else
      (od2, .ok var)
  | (od2, .error code) => (od2, .error code)

/-- `ObjectDirectory::set_value` (`src/object_directory.rs`): validates
writability (unless bypassed) and that the payload length matches the
data type's size, then stores the bytes; returns the updated variable. -/
def ObjectDirectory.set_value (od : ObjectDirectory) (index sub_index : Nat)
    (data : List Nat) (ignore_access_check : Bool) :
    ObjectDirectory × Except CanAbortCode Variable :=
  match od.get_mut_variable index sub_index with
  | (od2, .error code) => (od2, .error code)
  | (od2, .ok var) =>
    if ¬ ignore_access_check ∧ ¬ var.access_type.is_writable then
      (od2, .error .AttemptToWriteReadOnlyObject)
    else if var.data_type.size ≠ data.length then
      if var.data_type.size > data.length then
        (od2, .error .DataTypeMismatchLengthTooLow)
      else
        (od2, .error .DataTypeMismatchLengthTooHigh)
    else
      let var2 := { var with default_value := data }
      (od2.update_variable index sub_index var2, .ok var2)

/-! ## PDO objects (`src/pdo.rs`) -/

/-- `MAX_PDO_MAPPING_LENGTH` (`src/pdo.rs`). -/
def MAX_PDO_MAPPING_LENGTH : Nat := 64

/-- `PdoType` (`src/pdo.rs`). -/
inductive PdoType where
  | TPDO
  | RPDO
  deriving Repr, DecidableEq

/-- `PdoObject` (`src/pdo.rs`); the 64-slot `mappings` array is embedded
as a function from slot position to `(index, sub_index, bit_length)`. -/
structure PdoObject where
  pdo_type : PdoType
  is_pdo_valid : Bool
  not_used_rtr_allowed : Bool
  not_used_is_29bit_can_id : Bool
  largest_sub_index : Nat
  cob_id : Nat
  transmission_type : Nat
  inhibit_time : Nat
  event_timer : Nat
  num_of_map_objs : Nat
  mappings : Nat → Nat × Nat × Nat
  total_length : Nat
  cached_data : List Nat

/-- `PdoObjects` (`src/pdo.rs`); the two 4-slot arrays are embedded as
functions, the `cob_id → slot` hash map as a function into `Option`. -/
structure PdoObjects where
  rpdos : Nat → PdoObject
  tpdos : Nat → PdoObject
  cob_to_index : Nat → Option Nat

/-- The default RPDO slot of `PdoObjects::new` (`src/pdo.rs`). -/
def default_rpdo : PdoObject :=
  { pdo_type := .RPDO, is_pdo_valid := false, not_used_rtr_allowed := false,
    not_used_is_29bit_can_id := false, largest_sub_index := 5,
    cob_id := 0x202, transmission_type := 0x01, inhibit_time := 0,
    event_timer := 0, num_of_map_objs := 0, mappings := fun _ => (0, 0, 0),
    total_length := 0, cached_data := [] }

/-- The default TPDO slot of `PdoObjects::new` (`src/pdo.rs`). -/
def default_tpdo : PdoObject :=
  { default_rpdo with pdo_type := .TPDO, cob_id := 0x180 }

/-- `PdoObjects::new` (`src/pdo.rs`). -/
def PdoObjects.new : PdoObjects :=
  { rpdos := fun _ => default_rpdo, tpdos := fun _ => default_tpdo,
    cob_to_index := fun _ => none }

/-- `PdoObject::update_comm_params` (`src/pdo.rs`): refreshes the slot
from a communication-parameter variable; values are read back through
`Value::to`, which yields 0 on a length mismatch. -/
def PdoObject.update_comm_params (p : PdoObject) (var : Variable) : PdoObject :=
  let p1 :=
    if var.sub_index = 1 then
      let t := value_to 4 var.default_value
      { p with
        is_pdo_valid := ((t >>> 31) &&& 0x1) = 0
        not_used_rtr_allowed := ((t >>> 30) &&& 0x1) = 1
        not_used_is_29bit_can_id := ((t >>> 29) &&& 0x1) = 1
        cob_id := t &&& 0xFFFF }
    else p
  match var.sub_index with
  | 0 => { p1 with largest_sub_index := value_to 1 var.default_value }
  | 2 => { p1 with transmission_type := value_to 1 var.default_value }
  | 3 => { p1 with inhibit_time := value_to 2 var.default_value }
  | 5 => { p1 with event_timer := value_to 2 var.default_value }
  | _ => p1

/-- `PdoObject::update_map_params` (`src/pdo.rs`): sub-index 0 updates
the mapping count, other sub-indices decode a packed 32-bit mapping
entry into slot `sub_index - 1`.  The source indexes a 64-element array,
so a sub-index above 64 panics (`none`). -/
def PdoObject.update_map_params (p : PdoObject) (var : Variable) :
    Option PdoObject :=
  if var.sub_index = 0 then
    some { p with num_of_map_objs := value_to 1 var.default_value }
  else
    if var.sub_index - 1 < MAX_PDO_MAPPING_LENGTH then
      let t := value_to 4 var.default_value
      some { p with mappings := fun si =>
        if si = var.sub_index - 1 then (t >>> 16, (t >>> 8) &&& 0xFF, t &&& 0xFF)
        else p.mappings si }
    else
      none

/-! ## SDO server state (`src/sdo_server.rs`, `src/node.rs`) -/

/-- `SdoState` (`src/sdo_server.rs`). -/
inductive SdoState where
  | Normal
  | SdoSegmentUpload
  | SdoSegmentDownload
  | DownloadSdoBlock
  | EndSdoBlockDownload
  | StartSdoBlockUpload
  | ConfirmUploadSdoBlock
  deriving Repr, DecidableEq

/-- `NodeState` (`src/node.rs`). -/
inductive NodeState where
  | Init
  | PreOperational
  | Operational
  | Stopped
  deriving Repr, DecidableEq

/-- `Node` (`src/node.rs`), without the CAN handle (transmitted frames
are returned explicitly by the operations that emit them). -/
structure Node where
  node_id : Nat
  object_directory : ObjectDirectory
  backup_od : ObjectDirectory
  pdo_objects : PdoObjects
  sdo_state : SdoState
  read_buf : Option (List Nat)
  read_buf_index : Nat
  next_read_toggle : Nat
  write_buf : Option (List Nat)
  reserved_index : Nat
  reserved_sub_index : Nat
  write_data_size : Nat
  need_crc : Bool
  block_size : Nat
  current_seq_number : Nat
  crc_enabled : Bool
  sync_count : Nat
  event_count : Nat
  state : NodeState
  error_count : Nat
  heartbeats : Nat
  heartbeats_timer : Nat

/-- The existence check of `Node::update` for a mapping table whose
sub-index 0 was written: walks the sub-indices `n, n-1, ..., 1` through
`get_variable`, stopping at the first failure; the directory is threaded
because array look-ups can materialise entries. -/
def check_map_subs (od : ObjectDirectory) (index : Nat) :
    List Nat → ObjectDirectory × Bool
  | [] => (od, true)
  | si :: rest =>
    match od.get_variable index si with
    | (od2, .ok _) => check_map_subs od2 index rest
    | (od2, .error _) => (od2, false)

/-- The `total` accumulation of `Node::update`: a `u8` sum of the bit
lengths of the first `num` mappings. -/
def map_total_length (mappings : Nat → Nat × Nat × Nat) (num : Nat) : Nat :=
  (List.range num).foldl (fun t si => (t + (mappings si).2.2) % 256) 0

/-- `Node::update` (`src/pdo.rs`): re-derives the PDO slot state from a
freshly written variable in `0x1400..=0x1BFF`.  Mirrors the source,
including the unconditional `cob_to_index` registration for
communication parameters and the panic (`none`) when the slot position
`index & 0xF` falls outside the 4-element arrays. -/
def Node.update (n : Node) (var : Variable) :
    Option (Node × Except CanAbortCode Unit) :=
  let t := var.index >>> 8
  let x := var.index &&& 0xF
  if t < 0x14 ∨ t ≥ 0x1C then
    some (n, .ok ())
  else if x ≥ 4 then
    none
  else
    let pdo := if t < 0x18 then n.pdo_objects.rpdos x else n.pdo_objects.tpdos x
    let write_back := fun (n2 : Node) (p : PdoObject) =>
      if t < 0x18 then
        { n2 with pdo_objects := { n2.pdo_objects with
            rpdos := fun i => if i = x then p else n2.pdo_objects.rpdos i } }
      else
        { n2 with pdo_objects := { n2.pdo_objects with
            tpdos := fun i => if i = x then p else n2.pdo_objects.tpdos i } }
    if t % 4 < 2 then
      let pdo2 := pdo.update_comm_params var
      let n2 := write_back n pdo2
      let n3 := { n2 with pdo_objects := { n2.pdo_objects with
        cob_to_index := fun c => if c = pdo2.cob_id then some x
          else n2.pdo_objects.cob_to_index c } }
      some (n3, .ok ())
    else
      match pdo.update_map_params var with
      | none => none
      | some pdo2 =>
        let n2 := write_back n pdo2
        if var.sub_index = 0 then
          let subs := (List.range pdo2.num_of_map_objs).reverse.map (· + 1)
          let (od2, all_ok) := check_map_subs n2.object_directory var.index subs
          let n3 := { n2 with object_directory := od2 }
          if ¬ all_ok then
            some (n3, .error .ObjectCannotBeMappedToPDO)
          else
            let total := map_total_length pdo2.mappings pdo2.num_of_map_objs
            if total > MAX_PDO_MAPPING_LENGTH then
              some (n3, .error .ExceedPDOSize)
            else
              some (write_back n3 { pdo2 with total_length := total }, .ok ())
        else
          some (n2, .ok ())

/-- The PDO-mapping pre-check at the top of
`Node::set_value_with_check` (`src/sdo_server.rs`): for a write into a
mapping table (`0x1600..=0x17FF`, `0x1A00..=0x1BFF`) at sub-index
`1..=64`, the 32-bit payload must reference an existing, `pdo_mappable`
(and, for RPDO tables, writable) variable. -/
def Node.svwc_precheck (n : Node) (index sub_index : Nat)
    (data : List Nat) : Node × Option CanAbortCode :=
  if (0x1600 ≤ index ∧ index ≤ 0x17FF) ∨ (0x1A00 ≤ index ∧ index ≤ 0x1BFF) then
    if 0 < sub_index ∧ sub_index ≤ MAX_PDO_MAPPING_LENGTH then
      if data.length ≠ 4 then
        (n, some .ObjectCannotBeMappedToPDO)
      else
        let di := (data.getD 3 0 <<< 8) ||| data.getD 2 0
        let d_si := data.getD 1 0
        match n.object_directory.get_variable di d_si with
        | (od2, .ok var) =>
          let n2 := { n with object_directory := od2 }
          if ¬ var.pdo_mappable then
            (n2, some .ObjectCannotBeMappedToPDO)
          else if index < 0x1800 ∧ ¬ var.access_type.is_writable then
            (n2, some .ObjectCannotBeMappedToPDO)
          else
            (n2, none)
        | (od2, .error err) => ({ n with object_directory := od2 }, some err)
    else
      (n, none)
  else
    (n, none)

/-- `Node::set_value_with_check` (`src/sdo_server.rs`): the PDO mapping
pre-check, the OD write, and the post-write hooks (PDO re-derivation for
`0x1400..=0x1BFF`, heartbeat timer for `0x1017`). -/
def Node.set_value_with_check (n : Node) (index sub_index : Nat)
    (data : List Nat) : Option (Node × Except CanAbortCode Unit) :=
  match n.svwc_precheck index sub_index data with
  | (n1, some code) => some (n1, .error code)
  | (n1, none) =>
    match n1.object_directory.set_value index sub_index data false with
    | (od2, .error code) =>
      some ({ n1 with object_directory := od2 }, .error code)
    | (od2, .ok var) =>
      let n2 := { n1 with object_directory := od2 }
      if 0x1400 ≤ index ∧ index ≤ 0x1BFF then
        n2.update var
      else if index = 0x1017 then
        some ({ n2 with
          heartbeats_timer := value_to 2 var.default_value }, .ok ())
      else
        some (n2, .ok ())

/-! ## SDO command headers (`src/cmd_header.rs`)

Each header is a MSB-first bitfield over the first request byte. -/

def SdoDownloadInitiateCmd.n (b : Nat) : Nat := (b >>> 2) &&& 0x3

def SdoDownloadInitiateCmd.e (b : Nat) : Bool := (b >>> 1) &&& 0x1 = 1

def SdoDownloadInitiateCmd.s (b : Nat) : Bool := b &&& 0x1 = 1

def SdoDownloadSegmentCmd.ccs (b : Nat) : Nat := b >>> 5

def SdoDownloadSegmentCmd.t (b : Nat) : Nat := (b >>> 4) &&& 0x1

def SdoDownloadSegmentCmd.n (b : Nat) : Nat := (b >>> 1) &&& 0x7

def SdoDownloadSegmentCmd.c (b : Nat) : Bool := b &&& 0x1 = 1

def SdoBlockDownloadInitiateCmd.cc (b : Nat) : Bool := (b >>> 2) &&& 0x1 = 1

def SdoBlockDownloadInitiateCmd.s (b : Nat) : Bool := (b >>> 1) &&& 0x1 = 1

def SdoEndBlockDownloadCmd.n (b : Nat) : Nat := (b >>> 2) &&& 0x7

def SdoInitBlockUploadCmd.ccs (b : Nat) : Nat := b >>> 5

def SdoInitBlockUploadCmd.cc (b : Nat) : Bool := (b >>> 2) &&& 0x1 = 1

def SdoInitBlockUploadCmd.cs (b : Nat) : Nat := b &&& 0x3

def SdoBlockUploadCmd.ccs (b : Nat) : Nat := b >>> 5

def SdoBlockUploadCmd.cs (b : Nat) : Nat := b &&& 0x3

/-! ## SDO server handlers (`src/sdo_server.rs`) -/

/-- `Node::create_error_frame` (`src/sdo_server.rs`): the abort frame on
`0x580 | node_id` carrying `0x80`, the index (little-endian), the
sub-index and the 32-bit abort code (little-endian). -/
def Node.create_error_frame (n : Node) (error_code : CanAbortCode)
    (index sub_index : Nat) : CanFrame :=
  ⟨0x580 ||| n.node_id,
    [0x80, index % 256, (index >>> 8) % 256, sub_index] ++
      to_le_bytes 4 error_code.code⟩

/-- `Node::genf` (`src/sdo_server.rs`). -/
def Node.genf (n : Node) (data : List Nat) : CanFrame :=
  genf_and_padding (0x580 ||| n.node_id) data

/-- `Node::gen_frame` (`src/sdo_server.rs`). -/
def Node.gen_frame (n : Node) (cmd index sub_index : Nat) (data : List Nat) :
    CanFrame :=
  n.genf (flatten [[cmd], to_le_bytes 2 index, to_le_bytes 1 sub_index, data])

/-- `Node::initiate_upload` (`src/sdo_server.rs`): expedited reply for
values of at most 4 bytes, otherwise the segmented-upload initiation.
An empty current value reaches the unguarded `todo!()` of the source,
modelled as a panic (`none`). -/
def Node.initiate_upload (n : Node) (index sub_index : Nat) :
    Option (Node × Except CanAbortCode CanFrame) :=
  match n.object_directory.get_variable index sub_index with
  | (od2, .error code) => some ({ n with object_directory := od2 }, .error code)
  | (od2, .ok var) =>
    let n1 := { n with object_directory := od2 }
    let data := var.default_value
    if data.length ≤ 4 then
      if data.length = 0 then
        none
      else
        let cmd := 0x43 ||| (((4 - data.length) &&& 0x3) <<< 2)
        some (n1, .ok (n1.gen_frame cmd index sub_index data))
    else
      let n2 := { n1 with
        read_buf := some data, read_buf_index := 0, next_read_toggle := 0,
        reserved_index := index, reserved_sub_index := sub_index }
      let res := n2.gen_frame 0x41 index sub_index
        (to_le_bytes 4 (data.length % 2 ^ 32))
      some ({ n2 with sdo_state := .SdoSegmentUpload }, .ok res)

/-- `Node::upload_segment` (`src/sdo_server.rs`): emits up to 7 bytes per
segment with the toggle-bit check; on the last segment clears the buffer
and returns to `Normal`. -/
def Node.upload_segment (n : Node) (cmd : Nat) :
    Option (Node × Except CanAbortCode CanFrame) :=
  if cmd >>> 5 ≠ 0x3 then
    some (n, .error .GeneralError)
  else
    match n.read_buf with
    | some buffer =>
      let toggle := (cmd >>> 4) &&& 0x1
      if toggle ≠ n.next_read_toggle then
        some (n, .error .ToggleBitNotAlternated)
      else
        let n1 := { n with next_read_toggle := n.next_read_toggle ^^^ 1 }
        let remaining_data := buffer.drop n1.read_buf_index
        if remaining_data.length > 7 then
          let data := flatten [[toggle <<< 4], remaining_data.take 7]
          let n2 := { n1 with read_buf_index := n1.read_buf_index + 7 }
          some (n2, .ok (n2.genf data))
        else
          let nn := 7 - remaining_data.length
          let data := flatten [[0x01 ||| (toggle <<< 4) ||| (nn <<< 1)],
            remaining_data]
          let n2 := { n1 with read_buf := none, read_buf_index := 0 }
          some ({ n2 with sdo_state := .Normal }, .ok (n2.genf data))
    | none => some (n, .error .GeneralError)

/-- `Node::initiate_download` (`src/sdo_server.rs`): expedited writes go
straight to `set_value_with_check`; segmented writes open an empty
`write_buf` and move to `SdoSegmentDownload`. -/
def Node.initiate_download (n : Node) (index sub_index : Nat)
    (req : List Nat) : Option (Node × Except CanAbortCode CanFrame) :=
  let cmd := req.getD 0 0
  if SdoDownloadInitiateCmd.e cmd ∧ SdoDownloadInitiateCmd.s cmd then
    let data := (req.take (8 - SdoDownloadInitiateCmd.n cmd)).drop 4
    match n.set_value_with_check index sub_index data with
    | none => none
    | some (n1, .error code) => some (n1, .error code)
    | some (n1, .ok _) =>
      some (n1, .ok (n1.gen_frame 0x60 index sub_index [0, 0, 0, 0]))
  else
    let n1 := { n with
      write_buf := some [], reserved_index := index,
      reserved_sub_index := sub_index }
    let n2 :=
      if SdoDownloadInitiateCmd.s cmd then
        { n1 with write_data_size := le_bytes_to_nat ((req.drop 4).take 4) }
      else
        { n1 with write_data_size := 0 }
    let res := n2.gen_frame 0x60 index sub_index [0, 0, 0, 0]
    some ({ n2 with sdo_state := .SdoSegmentDownload }, .ok res)

/-- `Node::download_segment` (`src/sdo_server.rs`): appends the segment
payload; on the last segment checks the declared size and commits the
buffer via `set_value_with_check`.  (`dispatch_sdo_request` always
forces the state back to `Normal` for this handler.) -/
def Node.download_segment (n : Node) (req : List Nat) :
    Option (Node × Except CanAbortCode CanFrame) :=
  let rc := req.getD 0 0
  if SdoDownloadSegmentCmd.ccs rc ≠ 0x0 then
    some (n, .error .GeneralError)
  else
    match n.write_buf with
    | some buf =>
      let resp_cmd := 0x20 ||| (SdoDownloadSegmentCmd.t rc <<< 4)
      if ¬ SdoDownloadSegmentCmd.c rc then
        let n1 := { n with write_buf := some (buf ++ req.drop 1) }
        some (n1, .ok (n1.genf [resp_cmd]))
      else
        let buf2 := buf ++ (req.take (8 - SdoDownloadSegmentCmd.n rc)).drop 1
        let n1 := { n with write_buf := some buf2 }
        if n1.write_data_size > 0 ∧ n1.write_data_size ≠ buf2.length then
          some (n1, .error .GeneralError)
        else
          match n1.set_value_with_check n1.reserved_index
              n1.reserved_sub_index buf2 with
          | none => none
          | some (n2, .ok _) => some (n2, .ok (n2.genf [resp_cmd]))
          | some (n2, .error code) => some (n2, .error code)
    | none => some (n, .error .GeneralError)

/-- `Node::init_block_download` (`src/sdo_server.rs`): negotiates CRC and
block size, opens an empty `write_buf` and moves to
`DownloadSdoBlock`. -/
def Node.init_block_download (n : Node) (index sub_index : Nat)
    (req : List Nat) : Option (Node × Except CanAbortCode CanFrame) :=
  let cmd := req.getD 0 0
  let n1 := if SdoBlockDownloadInitiateCmd.cc cmd then
    { n with need_crc := true } else n
  let n2 :=
    if SdoBlockDownloadInitiateCmd.s cmd then
      { n1 with write_data_size := le_bytes_to_nat ((req.drop 4).take 4) }
    else
      { n1 with write_data_size := 0 }
  let n3 := { n2 with
    write_buf := some [], current_seq_number := 0,
    reserved_index := index, reserved_sub_index := sub_index }
  let resp_cmd := 0xA0 ||| ((if n3.crc_enabled then 1 else 0) <<< 2)
  let res := n3.gen_frame resp_cmd index sub_index [n3.block_size, 0, 0, 0]
  some ({ n3 with sdo_state := .DownloadSdoBlock }, .ok res)

/-- `Node::block_download` (`src/sdo_server.rs`): verifies the 7-bit
sequence number against the incremented counter (any mismatch is
`GeneralError`), appends bytes `1..7`, and on the last-of-block flag
truncates to the declared size, commits the buffer and moves to
`EndSdoBlockDownload`. -/
def Node.block_download (n : Node) (req : List Nat) :
    Option (Node × Except CanAbortCode CanFrame) :=
  let seqno := req.getD 0 0 &&& 0x7F
  let n1 := { n with current_seq_number := (n.current_seq_number + 1) % 256 }
  if seqno ≠ n1.current_seq_number then
    some (n1, .error .GeneralError)
  else
    match n1.write_buf with
    | some buf =>
      let buf2 := buf ++ req.drop 1
      let n2 := { n1 with write_buf := some buf2 }
      if req.getD 0 0 >>> 7 = 1 then
        let buf3 :=
          if buf2.length ≥ n2.write_data_size ∧
              buf2.length - 7 < n2.write_data_size then
            buf2.take n2.write_data_size
          else
            buf2
        let n3 := { n2 with write_buf := some buf3 }
        match n3.set_value_with_check n3.reserved_index
            n3.reserved_sub_index buf3 with
        | none => none
        | some (n4, .error code) => some (n4, .error code)
        | some (n4, .ok _) =>
          let res := n4.genf [0xA2, n4.current_seq_number, n4.block_size]
          some ({ n4 with sdo_state := .EndSdoBlockDownload }, .ok res)
      else
        some (n2, .ok (n2.genf []))
    | none => some (n1, .error .GeneralError)

/-- `Node::end_block_download` (`src/sdo_server.rs`): checks the unused
byte count of the final 7-byte chunk and acknowledges with `0xA1`; the
received CRC is parsed but never verified. -/
def Node.end_block_download (n : Node) (req : List Nat) :
    Option (Node × Except CanAbortCode CanFrame) :=
  if SdoEndBlockDownloadCmd.n (req.getD 0 0) ≠ 7 - n.write_data_size % 7 then
    some (n, .error .GeneralError)
  else
    some (n, .ok (n.genf [0xA1]))

/-- `Node::init_block_upload` (`src/sdo_server.rs`): validates the
sub-command and the requested block size, loads the current value into
`read_buf` and answers with the total size. -/
def Node.init_block_upload (n : Node) (index sub_index : Nat)
    (req : List Nat) : Option (Node × Except CanAbortCode CanFrame) :=
  let cmd := req.getD 0 0
  let blk_size := req.getD 4 0
  if SdoInitBlockUploadCmd.ccs cmd ≠ 0x5 ∨ SdoInitBlockUploadCmd.cs cmd ≠ 0 then
    some (n, .error .GeneralError)
  else if blk_size ≥ 0x80 then
    some (n, .error .InvalidBlockSize)
  else
    let n1 := { n with
      need_crc := SdoInitBlockUploadCmd.cc cmd,
      block_size := blk_size, reserved_index := index,
      reserved_sub_index := sub_index }
    match n1.object_directory.get_variable index sub_index with
    | (od2, .error code) =>
      some ({ n1 with object_directory := od2 }, .error code)
    | (od2, .ok var) =>
      let n2 := { n1 with
        object_directory := od2,
        read_buf := some var.default_value, read_buf_index := 0 }
      let resp_cmd := 0xC2 ||| ((if n2.crc_enabled then 1 else 0) <<< 2)
      let res := n2.gen_frame resp_cmd index sub_index
        (to_le_bytes 4 (var.default_value.length % 2 ^ 32))
      some ({ n2 with sdo_state := .StartSdoBlockUpload }, .ok res)

/-- `Node::start_block_upload` (`src/sdo_server.rs`): eagerly transmits
all but the last segment of `read_buf` and returns the last one, moving
to `ConfirmUploadSdoBlock`.  Unwrapping an absent buffer, and the
`buf.len() - 1` underflow on an empty buffer, are panics (`none`). -/
def Node.start_block_upload (n : Node) (req : List Nat) :
    Option (Node × List CanFrame × Except CanAbortCode CanFrame) :=
  let cmd := req.getD 0 0
  if SdoBlockUploadCmd.ccs cmd ≠ 0x5 ∨ SdoBlockUploadCmd.cs cmd ≠ 0x3 then
    some (n, [], .error .GeneralError)
  else
    match n.read_buf with
    | none => none
    | some buf =>
      if buf.length = 0 then
        none
      else
        let total_seqs := ((buf.length - 1) / 7 + 1) % 256
        let eager := (List.range (total_seqs - 1)).map fun i =>
          genf_and_padding (0x580 ||| n.node_id)
            (flatten [[i + 1], (buf.drop (i * 7)).take 7])
        let s := (total_seqs - 1) * 7
        let f := n.genf (flatten [[total_seqs ||| 0x80], buf.drop s])
        some ({ n with sdo_state := .ConfirmUploadSdoBlock }, eager, .ok f)

/-- `Node::confirm_block_upload` (`src/sdo_server.rs`): checks the
client's acknowledged sequence count against `ceil(len/7)` and emits the
final ack byte `0xC1 | ((7 - len % 7) << 2)` followed by the CRC (zero
when not negotiated).  The SDO state is left unchanged.  Unwrapping an
absent buffer, and the `buf.len() - 1` underflow on an empty buffer, are
panics (`none`). -/
def Node.confirm_block_upload (n : Node) (req : List Nat) :
    Option (Node × Except CanAbortCode CanFrame) :=
  let cmd := req.getD 0 0
  if SdoBlockUploadCmd.ccs cmd ≠ 0x5 ∨ SdoBlockUploadCmd.cs cmd ≠ 2 then
    some (n, .error .GeneralError)
  else
    match n.read_buf with
    | none => none
    | some buf =>
      if buf.length = 0 then
        none
      else
        let ackseq := req.getD 1 0
        let blksize := req.getD 2 0
        if ackseq ≠ (buf.length - 1) / 7 + 1 then
          some (n, .error .CommandSpecifierNotValidOrUnknown)
        else
          let n1 := { n with block_size := blksize }
          let nn := 7 - buf.length % 7
          let resp_cmd := 0xC1 ||| (nn <<< 2)
          let crc := if n1.need_crc then crc16_canopen_with_lut buf else 0
          let t := flatten [[resp_cmd], to_le_bytes 2 crc, [0, 0, 0, 0, 0]]
          some (n1, .ok (n1.genf t))

/-- `Node::filter_frame` (`src/node.rs`): an SDO request is accepted only
when the low 7 bits of its COB-ID equal the node id. -/
def Node.filter_frame (n : Node) (frame : CanFrame) : Bool :=
  ¬ (frame.cob_id &&& 0x7F = n.node_id)

/-- The state dispatch of `Node::dispatch_sdo_request`
(`src/sdo_server.rs`), before the abort-frame arm: produces the mutated
node, the eagerly transmitted frames and the handler verdict. -/
def Node.sdo_handle (n : Node) (frame : CanFrame) :
    Option (Node × List CanFrame × Except CanAbortCode CanFrame) :=
  let cmd := frame.data.getD 0 0
  let ccs := cmd >>> 5
  let index := (frame.data.getD 2 0 <<< 8) ||| frame.data.getD 1 0
  let sub_index := frame.data.getD 3 0
  match n.sdo_state with
  | .SdoSegmentDownload =>
    match n.download_segment frame.data with
    | none => none
    | some (n1, res) => some ({ n1 with sdo_state := .Normal }, [], res)
  | .SdoSegmentUpload =>
    match n.upload_segment cmd with
    | none => none
    | some (n1, res) => some (n1, [], res)
  | .DownloadSdoBlock =>
    match n.block_download frame.data with
    | none => none
    | some (n1, res) => some (n1, [], res)
  | .EndSdoBlockDownload =>
    match n.end_block_download frame.data with
    | none => none
    | some (n1, res) => some ({ n1 with sdo_state := .Normal }, [], res)
  | .StartSdoBlockUpload => n.start_block_upload frame.data
  | .ConfirmUploadSdoBlock =>
    match n.confirm_block_upload frame.data with
    | none => none
    | some (n1, res) => some (n1, [], res)
  | .Normal =>
    match ccs with
    | 0x1 =>
      match n.initiate_download index sub_index frame.data with
      | none => none
      | some (n1, res) => some (n1, [], res)
    | 0x2 =>
      match n.initiate_upload index sub_index with
      | none => none
      | some (n1, res) => some (n1, [], res)
    | 0x6 =>
      match n.init_block_download index sub_index frame.data with
      | none => none
      | some (n1, res) => some (n1, [], res)
    | 0x5 =>
      match n.init_block_upload index sub_index frame.data with
      | none => none
      | some (n1, res) => some (n1, [], res)
    | _ => some (n, [], .error .CommandSpecifierNotValidOrUnknown)

/-- `Node::dispatch_sdo_request` (`src/sdo_server.rs`): frame filter,
state dispatch, and the abort arm that replies with an error frame,
returns to `Normal` and drops both buffers.  The result collects every
frame the call transmits; `none` models a panic.  All SDO
handlers index bytes `0..=7` of the request, so a frame shorter than
8 bytes is conservatively treated as the panic it produces in the
source. -/
def Node.dispatch_sdo_request (n : Node) (frame : CanFrame) :
    Option (Node × List CanFrame) :=
  if n.filter_frame frame then
    some (n, [])
  else if frame.data.length ≠ 8 then
    none
  else
    let index := (frame.data.getD 2 0 <<< 8) ||| frame.data.getD 1 0
    let sub_index := frame.data.getD 3 0
    match n.sdo_handle frame with
    | none => none
    | some (n1, eager, .ok f) => some (n1, eager ++ [f])
    | some (n1, eager, .error code) =>
      let idx_pair :=
        match n1.sdo_state with
        | .Normal => (index, sub_index)
        | _ => (n1.reserved_index, n1.reserved_sub_index)
      let n2 := { n1 with
        sdo_state := .Normal, read_buf := none,
        write_buf := none, need_crc := false }
      some (n2, eager ++ [n2.create_error_frame code idx_pair.1 idx_pair.2])

/-! ## TPDO emission and NMT processing (`src/pdo.rs`, `src/node.rs`) -/

/-- The mapping-collection loop of `Node::gen_pdo_frame` (`src/pdo.rs`):
reads each mapped variable, pairing its value (big-endian folded into a
`u64`) with the mapped bit length; the first failure yields
`GeneralError`. -/
def gen_pdo_frame_loop (od : ObjectDirectory) :
    List (Nat × Nat × Nat) → ObjectDirectory × Except CanAbortCode (List (Nat × Nat))
  | [] => (od, .ok [])
  | (idx, sub_idx, bits) :: rest =>
    match od.get_variable idx sub_idx with
    | (od2, .ok v) =>
      match gen_pdo_frame_loop od2 rest with
      | (od3, .ok t) => (od3, .ok ((vec_to_u64 v.default_value, bits) :: t))
      | (od3, .error e) => (od3, .error e)
    | (od2, .error _) => (od2, .error .GeneralError)

/-- `Node::gen_pdo_frame` (`src/pdo.rs`): packs the mapped values into a
frame on the slot's COB-ID.  The source unwraps both `StandardId::new`
(panic above `0x7FF`) and `Frame::new` (panic when the packed payload
exceeds 8 bytes). -/
def Node.gen_pdo_frame (n : Node) (cob_id : Nat)
    (mappings : List (Nat × Nat × Nat)) :
    Option (Node × Except CanAbortCode CanFrame) :=
  match gen_pdo_frame_loop n.object_directory mappings with
  | (od2, .error e) => some ({ n with object_directory := od2 }, .error e)
  | (od2, .ok t) =>
    let packet := pack_data t
    if cob_id > 0x7FF ∨ packet.length > 8 then
      none
    else
      some ({ n with object_directory := od2 }, .ok ⟨cob_id, packet⟩)

/-- One iteration of `Node::transmit_pdo_messages` (`src/pdo.rs`):
skips invalid or untriggered slots, otherwise emits the slot's frame
(generation errors are logged and skipped).  Slicing
`mappings[0..num_of_map_objs]` panics when the count exceeds 64. -/
def Node.transmit_tpdo_slot (n : Node) (is_sync : Bool) (event : NodeEvent)
    (count i : Nat) : Option (Node × List CanFrame) :=
  let pdo := n.pdo_objects.tpdos i
  if ¬ pdo.is_pdo_valid then
    some (n, [])
  else if ¬ should_trigger_pdo is_sync event pdo.transmission_type
      pdo.event_timer count then
    some (n, [])
  else if pdo.num_of_map_objs > MAX_PDO_MAPPING_LENGTH then
    none
  else
    match n.gen_pdo_frame pdo.cob_id
        ((List.range pdo.num_of_map_objs).map pdo.mappings) with
    | none => none
    | some (n1, .ok f) => some (n1, [f])
    | some (n1, .error _) => some (n1, [])

/-- `Node::transmit_pdo_messages` (`src/pdo.rs`) over the four TPDO
slots. -/
def Node.transmit_pdo_messages (n : Node) (is_sync : Bool)
    (event : NodeEvent) (count : Nat) : Option (Node × List CanFrame) :=
  match n.transmit_tpdo_slot is_sync event count 0 with
  | none => none
  | some (n1, f1) =>
    match n1.transmit_tpdo_slot is_sync event count 1 with
    | none => none
    | some (n2, f2) =>
      match n2.transmit_tpdo_slot is_sync event count 2 with
      | none => none
      | some (n3, f3) =>
        match n3.transmit_tpdo_slot is_sync event count 3 with
        | none => none
        | some (n4, f4) => some (n4, f1 ++ f2 ++ f3 ++ f4)

/-- `Node::trigger_event` (`src/node.rs`): on `NodeStart` zeroes the
counters and runs the event-driven TPDO pass once. -/
def Node.trigger_event (n : Node) (event : NodeEvent) :
    Option (Node × List CanFrame) :=
  if event = NodeEvent.NodeStart then
    let n1 := { n with
      event_count := 0, sync_count := 0, error_count := 0, heartbeats := 0 }
    n1.transmit_pdo_messages false event n1.event_count
  else
    some (n, [])

/-- `Node::reset_object_directory_range` (`src/node.rs`): every index
in the current directory (restricted to the range unless `full_range`)
is replaced by its backup entry, or dropped when the backup has none;
`name_to_index` then retains only names whose index survived. -/
def Node.reset_object_directory_range (n : Node) (lo hi : Nat)
    (full_range : Bool) : Node :=
  let od := n.object_directory
  let new_map : Nat → Option ObjectType := fun k =>
    if (od.index_to_object k).isSome ∧ (full_range ∨ (lo ≤ k ∧ k ≤ hi)) then
      n.backup_od.index_to_object k
    else
      od.index_to_object k
  let new_names : String → Option Nat := fun s =>
    match od.name_to_index s with
    | some idx => if (new_map idx).isSome then some idx else none
    | none => none
  { n with object_directory := { od with
      index_to_object := new_map, name_to_index := new_names } }

/-- `Node::reset_communication` (`src/node.rs`). -/
def Node.reset_communication (n : Node) : Node :=
  n.reset_object_directory_range 0x1000 0x1FFF false

/-- `Node::reset` (`src/node.rs`): rebuilds the whole object directory
from the backup. -/
def Node.reset (n : Node) : Node :=
  n.reset_object_directory_range 0x1000 0x9FFF true

/-- `Node::process_nmt_frame` (`src/node.rs`): 2-byte NMT commands
addressed to this node; returns the frames emitted by the `NodeStart`
TPDO burst. -/
def Node.process_nmt_frame (n : Node) (frame : CanFrame) :
    Option (Node × List CanFrame) :=
  if frame.data.length ≠ 2 then
    some (n, [])
  else
    let cs := frame.data.getD 0 0
    let nid := frame.data.getD 1 0
    if nid ≠ n.node_id then
      some (n, [])
    else
      match cs with
      | 1 => ({ n with state := .Operational }).trigger_event .NodeStart
      | 2 =>
        some (if n.state ≠ .Init then { n with state := .Stopped } else n, [])
      | 0x80 => some ({ n with state := .PreOperational }, [])
      | 0x81 => some (({ n with state := .Init }).reset, [])
      | 0x82 => some (({ n with state := .Init }).reset_communication, [])
      | _ => some (n, [])

/-! ## Compact array ingestion (`src/object_directory.rs`) -/

/-- The sub-index 0 entry seeded by a `CompactSubObj` array section
(`ObjectDirectory::process_section`): declared `Unsigned8` but filled
with `Value::new(0u32.to_bytes())`, i.e. the four little-endian bytes of
`0u32`. -/
def compact_sub0 (index : Nat) : Variable :=
  { name := "Number of entries", index := index, sub_index := 0,
    data_type := .Unsigned8, default_value := to_le_bytes 4 0,
    min := none, max := none, pdo_mappable := false,
    access_type := ⟨false, false⟩, storage_location := "",
    parameter_value := none }

/-- The `ObjectType = 8`, `CompactSubObj` branch of
`ObjectDirectory::process_section`: a fresh array seeded with the
"Number of entries" sub-index 0 and, as sub-index 1, the variable built
from the section's own properties.  `build_variable`'s string parsing is
elided: its output is taken as the `proto_sub1` argument, with the
index and sub-index pinned exactly as `build_variable(properties,
node_id, name, index, Some(1u8))` pins them. -/
def process_compact_array_section (name : String) (index : Nat)
    (storage_location : String) (proto_sub1 : Variable) : ODArray :=
  let array0 : ODArray :=
    { name := name, index := index, storage_location := storage_location,
      index_to_variable := fun _ => none, name_to_index := fun _ => none }
  (array0.add_member (compact_sub0 index)).add_member
    { proto_sub1 with index := index, sub_index := 1 }

/-! ## C6: the PDO trigger predicate -/

/-- The trigger predicate exactly as the specification words it
(§4.4 "Trigger predicate"): used as the reference for `should_trigger_pdo`. -/
def spec_should_fire (is_sync : Bool) (event : NodeEvent)
    (transmission_type event_times count : Nat) : Bool :=
  if is_sync then
    decide (transmission_type ≠ 0 ∧ transmission_type ≤ 240 ∧
      count % transmission_type = 0)
  else if event = NodeEvent.NodeStart then
    true
  else
    decide ((transmission_type = 0xFE ∨ transmission_type = 0xFF) ∧
      0 < event_times ∧ count % event_times = 0)

/-- C6: for all inputs, `should_trigger_pdo` returns, in sync mode, true
iff `tt ≠ 0 ∧ tt ≤ 240 ∧ c % tt = 0`; in event mode, true on `NodeStart`
and otherwise true iff `tt ∈ {0xFE, 0xFF} ∧ et > 0 ∧ c % et = 0`. -/
theorem should_trigger_pdo_matches_spec_C6 (is_sync : Bool)
    (event : NodeEvent) (tt et c : Nat) :
    should_trigger_pdo is_sync event tt et c =
      spec_should_fire is_sync event tt et c := by
  cases is_sync <;> cases event <;>
    simp only [should_trigger_pdo, spec_should_fire] <;>
    by_cases h1 : tt = 0xFE <;> by_cases h2 : tt = 0xFF <;>
    by_cases h3 : et = 0 <;> by_cases h4 : c % et = 0 <;>
    by_cases h5 : tt = 0 <;> by_cases h6 : tt > 240 <;>
    by_cases h7 : c % tt = 0 <;>
    simp_all <;> omega

/-! ## C10: `initiate_upload` panics exactly on an empty value -/

/-- C10: `Node::initiate_upload` reaches the unguarded `todo!()` (a
panic, `none` in the embedding) exactly when the variable lookup
succeeds (the entry exists and is readable) but its current value is the
empty byte string; every other request produces a response or an abort
code, so the handler is panic-free only under the precondition that the
addressed value is non-empty. -/
theorem initiate_upload_panic_iff_empty_C10 (n : Node)
    (index sub_index : Nat) :
    n.initiate_upload index sub_index = none ↔
      ∃ od2 var,
        n.object_directory.get_variable index sub_index = (od2, .ok var) ∧
        var.default_value = [] := by
  unfold Node.initiate_upload
  rcases h : n.object_directory.get_variable index sub_index with ⟨od2, res⟩
  cases res with
  | error code => simp [h]
  | ok var =>
    simp only [h]
    by_cases hempty : var.default_value = []
    · simp only [hempty]
      simp only [List.length_nil, Nat.le_refl, if_true, if_pos rfl]
      exact iff_of_true rfl ⟨od2, var, rfl, hempty⟩
    · have hlen : var.default_value.length ≠ 0 := by simpa using hempty
      by_cases hle : var.default_value.length ≤ 4
      · simp [hle, hlen, hempty]
      · simp [hle, hempty]

/-! ## C2: the pack/unpack round trip -/

theorem mask64_of_lt {b : Nat} (hb : b < 64) : mask64 b = 2 ^ b - 1 := by
  unfold mask64 rustShl64
  rw [Nat.mod_eq_of_lt hb, Nat.shiftLeft_eq, Nat.one_mul,
    Nat.mod_eq_of_lt (Nat.pow_lt_pow_right (by norm_num) hb)]

/-- The central inversion lemma: over widths below 64 whose sum (plus
the bits already accumulated) stays within 64, `unpack_core` undoes the
`pack_data` accumulator fold, recovering the masked values and the
initial accumulator. -/
theorem unpack_core_foldl (xs : List (Nat × Nat)) : ∀ (a k : Nat),
    (∀ p ∈ xs, p.2 < 64) → k + (xs.map (fun p => p.2)).sum ≤ 64 →
    a < 2 ^ k →
    unpack_core
        (xs.foldl (fun merged p => rustShl64 merged p.2 ||| (p.1 &&& mask64 p.2)) a)
        (xs.map (fun p => p.2)) =
      (xs.map (fun p => (p.1 &&& (2 ^ p.2 - 1), p.2)), a) := by
  induction xs with
  | nil => intro a k _ _ _; simp [unpack_core]
  | cons hd rest ih =>
    intro a k hw hsum ha
    obtain ⟨d, b⟩ := hd
    have hb : b < 64 := hw (d, b) (List.mem_cons_self _ _)
    have hrest : ∀ p ∈ rest, p.2 < 64 := fun p hp => hw p (List.mem_cons_of_mem _ hp)
    simp only [List.map_cons, List.sum_cons] at hsum ⊢
    set Wrest := (rest.map (fun p => p.2)).sum with hWrest
    have hm : d &&& mask64 b = d % 2 ^ b := by
      rw [mask64_of_lt hb, Nat.and_pow_two_sub_one_eq_mod]
    have hmlt : d % 2 ^ b < 2 ^ b := Nat.mod_lt _ (Nat.pos_pow_of_pos _ (by norm_num))
    have hshift : rustShl64 a b = a * 2 ^ b := by
      unfold rustShl64
      rw [Nat.mod_eq_of_lt hb, Nat.shiftLeft_eq]
      refine Nat.mod_eq_of_lt ?_
      calc a * 2 ^ b < 2 ^ k * 2 ^ b := by
            exact (Nat.mul_lt_mul_right
              (Nat.pos_pow_of_pos b (by norm_num))).mpr ha
        _ = 2 ^ (k + b) := by rw [← Nat.pow_add]
        _ ≤ 2 ^ 64 := Nat.pow_le_pow_right (by norm_num) (by omega)
    have hor : rustShl64 a b ||| (d &&& mask64 b) = a * 2 ^ b + d % 2 ^ b := by
      rw [hshift, hm, Nat.mul_comm a (2 ^ b), ← Nat.mul_add_lt_is_or hmlt,
        Nat.mul_comm (2 ^ b) a]
    have ha2 : a * 2 ^ b + d % 2 ^ b < 2 ^ (k + b) := by
      have h1 : a + 1 ≤ 2 ^ k := ha
      calc a * 2 ^ b + d % 2 ^ b < a * 2 ^ b + 2 ^ b := by omega
        _ = (a + 1) * 2 ^ b := by ring
        _ ≤ 2 ^ k * 2 ^ b := Nat.mul_le_mul_right _ h1
        _ = 2 ^ (k + b) := by rw [← Nat.pow_add]
    simp only [List.foldl_cons, hor]
    have ihr := ih (a * 2 ^ b + d % 2 ^ b) (k + b) hrest (by omega) ha2
    simp only [unpack_core, ihr]
    have hhead : (a * 2 ^ b + d % 2 ^ b) &&& mask64 b = d &&& (2 ^ b - 1) := by
      rw [mask64_of_lt hb, Nat.and_pow_two_sub_one_eq_mod,
        Nat.and_pow_two_sub_one_eq_mod, Nat.mul_comm a (2 ^ b),
        Nat.mul_add_mod, Nat.mod_mod_of_dvd d dvd_rfl]
    have htail : rustShr64 (a * 2 ^ b + d % 2 ^ b) b = a := by
      unfold rustShr64
      rw [Nat.mod_eq_of_lt hb, Nat.shiftRight_eq_div_pow, Nat.add_comm,
        Nat.add_mul_div_right _ _ (Nat.pos_pow_of_pos _ (by norm_num)),
        Nat.div_eq_of_lt hmlt, Nat.zero_add]
    rw [hhead, htail]

/-- Bound on the `pack_data` accumulator: with widths below 64 summing
(with the bits already consumed) to at most 64, the fold stays below
`2 ^ (k + Σ bits)`. -/
theorem pack_foldl_lt (xs : List (Nat × Nat)) : ∀ (a k : Nat),
    (∀ p ∈ xs, p.2 < 64) → k + (xs.map (fun p => p.2)).sum ≤ 64 →
    a < 2 ^ k →
    xs.foldl (fun merged p => rustShl64 merged p.2 ||| (p.1 &&& mask64 p.2)) a <
      2 ^ (k + (xs.map (fun p => p.2)).sum) := by
  induction xs with
  | nil => intro a k _ _ ha; simpa using ha
  | cons hd rest ih =>
    intro a k hw hsum ha
    obtain ⟨d, b⟩ := hd
    have hb : b < 64 := hw (d, b) (List.mem_cons_self _ _)
    have hrest : ∀ p ∈ rest, p.2 < 64 := fun p hp => hw p (List.mem_cons_of_mem _ hp)
    simp only [List.map_cons, List.sum_cons] at hsum ⊢
    have hm : d &&& mask64 b = d % 2 ^ b := by
      rw [mask64_of_lt hb, Nat.and_pow_two_sub_one_eq_mod]
    have hmlt : d % 2 ^ b < 2 ^ b := Nat.mod_lt _ (Nat.pos_pow_of_pos _ (by norm_num))
    have hshift : rustShl64 a b = a * 2 ^ b := by
      unfold rustShl64
      rw [Nat.mod_eq_of_lt hb, Nat.shiftLeft_eq]
      refine Nat.mod_eq_of_lt ?_
      calc a * 2 ^ b < 2 ^ k * 2 ^ b := by
            exact (Nat.mul_lt_mul_right (Nat.pos_pow_of_pos b (by norm_num))).mpr ha
        _ = 2 ^ (k + b) := by rw [← Nat.pow_add]
        _ ≤ 2 ^ 64 := Nat.pow_le_pow_right (by norm_num) (by omega)
    have hor : rustShl64 a b ||| (d &&& mask64 b) = a * 2 ^ b + d % 2 ^ b := by
      rw [hshift, hm, Nat.mul_comm a (2 ^ b), ← Nat.mul_add_lt_is_or hmlt,
        Nat.mul_comm (2 ^ b) a]
    have ha2 : a * 2 ^ b + d % 2 ^ b < 2 ^ (k + b) := by
      have h1 : a + 1 ≤ 2 ^ k := ha
      calc a * 2 ^ b + d % 2 ^ b < a * 2 ^ b + 2 ^ b := by omega
        _ = (a + 1) * 2 ^ b := by ring
        _ ≤ 2 ^ k * 2 ^ b := Nat.mul_le_mul_right _ h1
        _ = 2 ^ (k + b) := by rw [← Nat.pow_add]
    simp only [List.foldl_cons, hor]
    have := ih (a * 2 ^ b + d % 2 ^ b) (k + b) hrest (by omega) ha2
    have harr : k + b + (rest.map (fun p => p.2)).sum =
        k + (b + (rest.map (fun p => p.2)).sum) := by omega
    rw [harr] at this
    exact this

/-- The `u8` accumulation of `total_bits` in `pack_data` does not wrap
as long as the true sum stays below 256. -/
theorem pack_total_bits_no_wrap (xs : List (Nat × Nat)) : ∀ (t : Nat),
    t + (xs.map (fun p => p.2)).sum ≤ 255 →
    xs.foldl (fun t p => (t + p.2) % 256) t = t + (xs.map (fun p => p.2)).sum := by
  induction xs with
  | nil => intro t _; simp
  | cons hd rest ih =>
    intro t hsum
    simp only [List.map_cons, List.sum_cons] at hsum ⊢
    simp only [List.foldl_cons]
    have hstep : (t + hd.2) % 256 = t + hd.2 := Nat.mod_eq_of_lt (by omega)
    rw [hstep, ih (t + hd.2) (by omega)]
    omega

/-- `vec_to_u64` recovers the integer written out by the byte-emission
loop of `pack_data`, as long as everything fits in 64 bits. -/
theorem vec_to_u64_be_bytes : ∀ (nbytes a m : Nat),
    m < 2 ^ (8 * nbytes) → a * 2 ^ (8 * nbytes) + m < 2 ^ 64 →
    (be_bytes m nbytes).foldl (fun res x => ((res <<< 8) % 2 ^ 64) ||| x) a =
      a * 2 ^ (8 * nbytes) + m := by
  intro nbytes
  induction nbytes with
  | zero =>
    intro a m hm _
    interval_cases m
    simp [be_bytes]
  | succ nb ih =>
    intro a m hm hfit
    have hpow : (2 : Nat) ^ (8 * (nb + 1)) = 2 ^ (8 * nb) * 256 := by
      rw [show 8 * (nb + 1) = 8 * nb + 8 by ring, Nat.pow_add]
    have hdiv : m / 256 < 2 ^ (8 * nb) := by
      rw [Nat.div_lt_iff_lt_mul (by norm_num)]
      calc m < 2 ^ (8 * (nb + 1)) := hm
        _ = 2 ^ (8 * nb) * 256 := hpow
    have hfit2 : a * 2 ^ (8 * nb) + m / 256 < 2 ^ 64 := by
      have h1 : a * 2 ^ (8 * nb) ≤ a * 2 ^ (8 * (nb + 1)) := by
        exact Nat.mul_le_mul_left a (Nat.pow_le_pow_right (by norm_num) (by omega))
      have h2 : m / 256 ≤ m := Nat.div_le_self m 256
      omega
    have hshift8 : m >>> 8 = m / 256 := by
      rw [Nat.shiftRight_eq_div_pow]
    simp only [be_bytes, List.foldl_append, List.foldl_cons, List.foldl_nil,
      hshift8]
    rw [ih a (m / 256) hdiv hfit2]
    set A := a * 2 ^ (8 * nb) + m / 256 with hA
    have hAeq : A * 256 + m % 256 = a * 2 ^ (8 * (nb + 1)) + m := by
      have hdm := Nat.div_add_mod m 256
      calc A * 256 + m % 256
          = a * (2 ^ (8 * nb) * 256) + (256 * (m / 256) + m % 256) := by
            rw [hA]; ring
        _ = a * 2 ^ (8 * (nb + 1)) + m := by rw [← hpow, hdm]
    have hAfit : A * 256 < 2 ^ 64 := by omega
    have hshl : (A <<< 8) % 2 ^ 64 = A * 256 := by
      rw [Nat.shiftLeft_eq]
      norm_num
      exact hAfit
    rw [hshl]
    have hor : A * 256 ||| m % 256 = A * 256 + m % 256 := by
      have hb : m % 256 < 2 ^ 8 := by
        have := Nat.mod_lt m (show 0 < 256 by norm_num)
        norm_num
        omega
      calc A * 256 ||| m % 256 = 2 ^ 8 * A ||| m % 256 := by ring_nf
        _ = 2 ^ 8 * A + m % 256 := (Nat.mul_add_lt_is_or hb A).symm
        _ = A * 256 + m % 256 := by ring
    rw [hor, hAeq]

/-- C2 (counterexample): for the single full-width pair `(1, 64)` — an
allowed input, since its widths sum to 64 — the round trip does not
return the masked pair: the `u64` shift by 64 in `(1 << bits) - 1` wraps
and `pack_data` stores 0, so `unpack_data` recovers `(0, 64)` instead of
`(1, 64)`. -/
theorem pack_unpack_full_width_cex_C2 :
    unpack_data (pack_data [(1, 64)]) [64] ≠ [(1 &&& (2 ^ 64 - 1), 64)] := by
  decide

/-- C2 (amended): for every list of `(value, bits)` pairs whose bit
widths sum to at most 64 and are each strictly below 64, `unpack_data`
applied to `pack_data`'s output with the same width list returns the
list of `(value AND ((1 << bits) - 1), bits)` pairs. -/
theorem pack_unpack_roundtrip_C2 (xs : List (Nat × Nat))
    (hw : ∀ p ∈ xs, p.2 < 64)
    (hsum : (xs.map (fun p => p.2)).sum ≤ 64) :
    unpack_data (pack_data xs) (xs.map (fun p => p.2)) =
      xs.map (fun p => (p.1 &&& (2 ^ p.2 - 1), p.2)) := by
  have hW255 : (0 : Nat) + (xs.map (fun p => p.2)).sum ≤ 255 := by omega
  have htb : pack_total_bits xs = (xs.map (fun p => p.2)).sum := by
    have := pack_total_bits_no_wrap xs 0 hW255
    simpa [pack_total_bits] using this
  set W := (xs.map (fun p => p.2)).sum with hWdef
  set B := W / 8 + if W % 8 > 0 then 1 else 0 with hBdef
  have hB1 : W ≤ 8 * B := by
    rw [hBdef]; by_cases h : W % 8 > 0 <;> simp [h] <;> omega
  have hB2 : 8 * B ≤ 64 := by
    rw [hBdef]; by_cases h : W % 8 > 0 <;> simp [h] <;> omega
  have hM : pack_merged xs < 2 ^ W := by
    have := pack_foldl_lt xs 0 0 hw (by omega) (by norm_num)
    simpa [pack_merged] using this
  have hMB : pack_merged xs < 2 ^ (8 * B) :=
    lt_of_lt_of_le hM (Nat.pow_le_pow_right (by norm_num) hB1)
  have hM64 : (0 : Nat) * 2 ^ (8 * B) + pack_merged xs < 2 ^ 64 := by
    have : (2 : Nat) ^ (8 * B) ≤ 2 ^ 64 :=
      Nat.pow_le_pow_right (by norm_num) hB2
    omega
  have hv : vec_to_u64 (be_bytes (pack_merged xs) B) = pack_merged xs := by
    have := vec_to_u64_be_bytes B 0 (pack_merged xs) hMB hM64
    simpa [vec_to_u64] using this
  have hpd : pack_data xs = be_bytes (pack_merged xs) B := by
    simp only [pack_data, htb]
  rw [unpack_data, hpd, hv]
  have := unpack_core_foldl xs 0 0 hw (by omega) (by norm_num)
  simp only [pack_merged]
  rw [this]

/-- C2 (witness): the round trip at the 12/20/9-bit mapping used by the
source's own unit test. -/
theorem pack_unpack_roundtrip_C2_witness :
    unpack_data (pack_data [(0xABCD, 12), (0x123456, 20), (0x0102, 9)])
        ([(0xABCD, 12), (0x123456, 20), (0x0102, 9)].map (fun p => p.2)) =
      [(0xABCD, 12), (0x123456, 20), (0x0102, 9)].map
        (fun p => (p.1 &&& (2 ^ p.2 - 1), p.2)) :=
  pack_unpack_roundtrip_C2 [(0xABCD, 12), (0x123456, 20), (0x0102, 9)]
    (by decide) (by decide)

/-! ## C1: the abort path of `dispatch_sdo_request` -/

/-- C1: whenever the state handler inside `dispatch_sdo_request` returns
an error for an SDO request addressed to this node, the reply is an
8-byte frame on COB-ID `0x580 + node_id` whose byte 0 is `0x80`,
bytes 1-2 are the associated index (little-endian; the request's index
in `Normal` state, the reserved in-flight index otherwise), byte 3 the
sub-index, bytes 4-7 the 32-bit abort code little-endian — and the
post-state has `sdo_state = Normal` with both `read_buf` and
`write_buf` cleared. -/
theorem dispatch_abort_frame_C1 (n n1 : Node) (frame : CanFrame)
    (eager : List CanFrame) (code : CanAbortCode)
    (hlen : frame.data.length = 8)
    (hfilter : n.filter_frame frame = false)
    (hhandle : n.sdo_handle frame = some (n1, eager, .error code)) :
    let index := (frame.data.getD 2 0 <<< 8) ||| frame.data.getD 1 0
    let sub_index := frame.data.getD 3 0
    let ip := match n1.sdo_state with
      | SdoState.Normal => (index, sub_index)
      | _ => (n1.reserved_index, n1.reserved_sub_index)
    let n2 : Node := { n1 with
      sdo_state := .Normal, read_buf := none,
      write_buf := none, need_crc := false }
    n.dispatch_sdo_request frame =
      some (n2, eager ++ [n2.create_error_frame code ip.1 ip.2]) ∧
    n2.sdo_state = .Normal ∧ n2.read_buf = none ∧ n2.write_buf = none ∧
    (n2.create_error_frame code ip.1 ip.2).cob_id = 0x580 ||| n2.node_id ∧
    (n2.create_error_frame code ip.1 ip.2).data =
      [0x80, ip.1 % 256, (ip.1 >>> 8) % 256, ip.2] ++ to_le_bytes 4 code.code ∧
    ((n2.create_error_frame code ip.1 ip.2).data).length = 8 := by
  intro index sub_index ip n2
  refine ⟨?_, rfl, rfl, rfl, rfl, rfl, ?_⟩
  · unfold Node.dispatch_sdo_request
    rw [hfilter, hlen, hhandle]
    simp only [Bool.false_eq_true, if_false, if_pos rfl]
    rfl
  · simp [Node.create_error_frame, to_le_bytes]

/-- A heartbeat-time variable (`0x1017:00`, `Unsigned16`, `rw`) as in the
demo EDS used by the source's integration tests. -/
def demo_var_1017 : Variable :=
  { name := "Producer heartbeat time", storage_location := "",
    data_type := .Unsigned16, default_value := [0, 0], min := none,
    max := none, pdo_mappable := false, access_type := ⟨true, true⟩,
    parameter_value := none, index := 0x1017, sub_index := 0 }

/-- A small object directory holding just the heartbeat-time entry. -/
def demo_od : ObjectDirectory :=
  { node_id := 2,
    index_to_object := fun k =>
      if k = 0x1017 then some (.variable demo_var_1017) else none,
    name_to_index := fun s =>
      if s = "Producer heartbeat time" then some 0x1017 else none }

/-- A node with the field values `Node::new` assigns (`src/node.rs`),
over a given object directory. -/
def fresh_node (od : ObjectDirectory) : Node :=
  { node_id := 2, object_directory := od, backup_od := od,
    pdo_objects := PdoObjects.new, sdo_state := .Normal, read_buf := none,
    read_buf_index := 0, next_read_toggle := 0, write_buf := none,
    reserved_index := 0, reserved_sub_index := 0, write_data_size := 0,
    need_crc := false, block_size := 0x7F, current_seq_number := 0,
    crc_enabled := true, sync_count := 0, event_count := 0, state := .Init,
    error_count := 0, heartbeats := 0, heartbeats_timer := 0 }

/-- An SDO request on `0x602` whose command specifier `0xE0` (ccs = 7) is
not a valid client command, as in the source's `test_error_read`. -/
def c1_frame : CanFrame := ⟨0x602, [0xE0, 0x00, 0x10, 0x00, 0, 0, 0, 0]⟩

/-- C1 (witness): the invalid command specifier `0xE0` sent to the fresh
node draws the abort frame with code 0x05040001 and leaves the cleared
`Normal` state. -/
theorem dispatch_abort_frame_C1_witness :
    (fresh_node demo_od).dispatch_sdo_request c1_frame =
      some ({ fresh_node demo_od with
          sdo_state := .Normal, read_buf := none,
          write_buf := none, need_crc := false },
        [] ++ [Node.create_error_frame
          { fresh_node demo_od with
            sdo_state := .Normal, read_buf := none,
            write_buf := none, need_crc := false }
          .CommandSpecifierNotValidOrUnknown 0x1000 0x00]) :=
  (dispatch_abort_frame_C1 (fresh_node demo_od) (fresh_node demo_od)
    c1_frame [] .CommandSpecifierNotValidOrUnknown rfl rfl rfl).1

/-! ## C8: block-download sequence numbers -/

/-- A node mid block-download: empty accumulation buffer, expecting
sequence number 1, with the reserved target `0x1017:00`. -/
def c8_node : Node :=
  { fresh_node demo_od with
    sdo_state := .DownloadSdoBlock, write_buf := some [],
    reserved_index := 0x1017, reserved_sub_index := 0 }

/-- A block-download sub-frame carrying sequence number 2 where 1 is
expected. -/
def c8_frame : CanFrame := ⟨0x602, [0x02, 1, 2, 3, 4, 5, 6, 7]⟩

/-- C8 (counterexample): on the out-of-sequence sub-frame the server
aborts with `GeneralError` `0x08000000` (bytes 4-7 of the reply are
`[0, 0, 0, 0x08]`), not with the invalid-sequence-number code
`0x05040003` the claim names. -/
theorem block_download_seqno_cex_C8 :
    ((c8_node.dispatch_sdo_request c8_frame).map
        (fun p => p.2.map (fun f => f.data.drop 4))) = some [[0, 0, 0, 0x08]] ∧
    ([0, 0, 0, 0x08] : List Nat) ≠
      to_le_bytes 4 CanAbortCode.InvalidSequenceNumber.code := by
  constructor
  · rfl
  · decide

/-- C8 (amended): during an SDO block download, a sub-frame whose 7-bit
sequence number is not the successor of the previously accepted one is
answered with an abort carrying `GeneralError` (`0x08000000` — the
source never uses `0x05040003` here), dropping the transfer; a sub-frame
with the correct sequence number and the more-segments bit clear has its
bytes 1..7 appended to `write_buf` while the state remains
`DownloadSdoBlock`. -/
theorem block_download_seqno_C8 (n : Node) (frame : CanFrame)
    (buf : List Nat)
    (hlen : frame.data.length = 8)
    (hfilter : n.filter_frame frame = false)
    (hstate : n.sdo_state = .DownloadSdoBlock)
    (hbuf : n.write_buf = some buf) :
    let seqno := frame.data.getD 0 0 &&& 0x7F
    let succ_no := (n.current_seq_number + 1) % 256
    (seqno ≠ succ_no →
      ∃ n2 f, n.dispatch_sdo_request frame = some (n2, [f]) ∧
        n2.sdo_state = .Normal ∧ n2.read_buf = none ∧ n2.write_buf = none ∧
        f.data = [0x80, n.reserved_index % 256, (n.reserved_index >>> 8) % 256,
          n.reserved_sub_index] ++ to_le_bytes 4 CanAbortCode.GeneralError.code) ∧
    (seqno = succ_no → frame.data.getD 0 0 >>> 7 ≠ 1 →
      ∃ n2 f, n.dispatch_sdo_request frame = some (n2, [f]) ∧
        n2.sdo_state = .DownloadSdoBlock ∧
        n2.write_buf = some (buf ++ frame.data.drop 1)) := by
  intro seqno succ_no
  have hD : ∀ r, n.sdo_handle frame = r →
      n.dispatch_sdo_request frame =
      match r with
      | none => none
      | some (n1, eager, .ok f) => some (n1, eager ++ [f])
      | some (n1, eager, .error code) =>
        let idx_pair :=
          match n1.sdo_state with
          | .Normal => (((frame.data.getD 2 0 <<< 8) ||| frame.data.getD 1 0),
              frame.data.getD 3 0)
          | _ => (n1.reserved_index, n1.reserved_sub_index)
        let n2 : Node := { n1 with
          sdo_state := .Normal, read_buf := none,
          write_buf := none, need_crc := false }
        some (n2, eager ++ [n2.create_error_frame code idx_pair.1 idx_pair.2]) := by
    intro r hr
    unfold Node.dispatch_sdo_request
    rw [hfilter, hlen, hr]
    norm_num
  have hH : ∀ r, n.block_download frame.data = r →
      n.sdo_handle frame =
      match r with
      | none => none
      | some (n1, res) => some (n1, [], res) := by
    intro r hr
    unfold Node.sdo_handle
    rw [hstate, hr]
  constructor
  · intro hne
    have hB : n.block_download frame.data =
        some ({ n with current_seq_number := succ_no }, .error .GeneralError) := by
      unfold Node.block_download
      rw [if_pos hne]
    have hfinal := hD _ (hH _ hB)
    simp only [hstate, List.nil_append] at hfinal
    exact ⟨_, _, hfinal, rfl, rfl, rfl, rfl⟩
  · intro heq hlast
    have hB : n.block_download frame.data =
        some ({ n with
            current_seq_number := succ_no,
            write_buf := some (buf ++ frame.data.drop 1) },
          .ok (Node.genf { n with
            current_seq_number := succ_no,
            write_buf := some (buf ++ frame.data.drop 1) } [])) := by
      unfold Node.block_download
      rw [if_neg (not_not_intro heq)]
      have hwb : ({ n with current_seq_number := succ_no } : Node).write_buf =
          some buf := hbuf
      rw [hwb]
      simp only []
      rw [if_neg hlast]
    have hfinal := hD _ (hH _ hB)
    simp only [List.nil_append] at hfinal
    exact ⟨_, _, hfinal, hstate, rfl⟩

/-- C8 (witness): the mismatch case at sequence number 2 instead of 1,
against `c8_node`: the abort frame carries `0x08000000` for the reserved
target `0x1017:00`. -/
theorem block_download_seqno_C8_witness :
    ∃ n2 f, c8_node.dispatch_sdo_request c8_frame = some (n2, [f]) ∧
      n2.sdo_state = .Normal ∧ n2.read_buf = none ∧ n2.write_buf = none ∧
      f.data = [0x80, 0x17, 0x10, 0x00] ++
        to_le_bytes 4 CanAbortCode.GeneralError.code := by
  have h := block_download_seqno_C8 c8_node c8_frame [] rfl rfl rfl rfl
  simp only [] at h
  exact h.1 (by decide)

/-! ## C3: the final block-upload ack -/

/-- A node awaiting the block-upload confirm for the 4-byte value
`0x000F0191` (the device type `0x1000:00` of the demo EDS), CRC not
negotiated. -/
def c3_node : Node :=
  { fresh_node demo_od with
    sdo_state := .ConfirmUploadSdoBlock,
    read_buf := some [0x91, 0x01, 0x0F, 0x00],
    reserved_index := 0x1000, reserved_sub_index := 0 }

/-- The block-upload confirm request `ccs=5, cs=2` acknowledging
`ackseq = 1` (the correct `ceil(4/7)`), as in the source's
`test_block_upload_without_crc`. -/
def c3_frame : CanFrame := ⟨0x602, [0xA2, 0x01, 0x14, 0, 0, 0, 0, 0]⟩

/-- C3 (counterexample): after emitting the final ack `0xCD` the server
does **not** transition to `Normal`: `sdo_state` remains
`ConfirmUploadSdoBlock`. -/
theorem confirm_block_upload_cex_C3 :
    ((c3_node.dispatch_sdo_request c3_frame).map
        (fun p => (p.1.sdo_state, p.2.map CanFrame.data))) =
      some (.ConfirmUploadSdoBlock, [[0xCD, 0, 0, 0, 0, 0, 0, 0]]) ∧
    SdoState.ConfirmUploadSdoBlock ≠ SdoState.Normal :=
  ⟨rfl, by decide⟩

/-- C3 (amended): in `ConfirmUploadSdoBlock` with a non-empty `read_buf`
of length `len`, a confirm request (`ccs=5, cs=2`) whose `ackseq` equals
`ceil(len/7)` draws the final ack frame: byte 0 is
`0xC1 | ((7 - len mod 7) << 2)`, bytes 1-2 the CRC16 little-endian when
negotiated (zero otherwise) and the rest zeros — but the SDO state
remains `ConfirmUploadSdoBlock` (the source never returns to `Normal`
here; only the next request's abort path does). -/
theorem confirm_block_upload_C3 (n : Node) (frame : CanFrame)
    (buf : List Nat)
    (hlen8 : frame.data.length = 8)
    (hfilter : n.filter_frame frame = false)
    (hstate : n.sdo_state = .ConfirmUploadSdoBlock)
    (hbuf : n.read_buf = some buf)
    (hpos : 0 < buf.length)
    (hccs : frame.data.getD 0 0 >>> 5 = 0x5)
    (hcs : frame.data.getD 0 0 &&& 0x3 = 2)
    (hack : frame.data.getD 1 0 = (buf.length - 1) / 7 + 1) :
    ∃ n2 f, n.dispatch_sdo_request frame = some (n2, [f]) ∧
      n2.sdo_state = .ConfirmUploadSdoBlock ∧
      n2.read_buf = some buf ∧
      n2.block_size = frame.data.getD 2 0 ∧
      f.cob_id = 0x580 ||| n.node_id ∧
      f.data = [0xC1 ||| ((7 - buf.length % 7) <<< 2)] ++
        to_le_bytes 2 (if n.need_crc then crc16_canopen_with_lut buf else 0) ++
        [0, 0, 0, 0, 0] := by
  have hC : n.confirm_block_upload frame.data =
      some ({ n with block_size := frame.data.getD 2 0 },
        .ok (Node.genf { n with block_size := frame.data.getD 2 0 }
          (flatten [[0xC1 ||| ((7 - buf.length % 7) <<< 2)],
            to_le_bytes 2 (if n.need_crc then crc16_canopen_with_lut buf else 0),
            [0, 0, 0, 0, 0]]))) := by
    unfold Node.confirm_block_upload
    simp only []
    rw [if_neg (show ¬ (SdoBlockUploadCmd.ccs (frame.data.getD 0 0) ≠ 0x5 ∨
        SdoBlockUploadCmd.cs (frame.data.getD 0 0) ≠ 2) from
      not_or.mpr ⟨not_not_intro hccs, not_not_intro hcs⟩)]
    rw [hbuf]
    simp only []
    rw [if_neg (by omega), if_neg (not_not_intro hack)]
  have hH : n.sdo_handle frame =
      match n.confirm_block_upload frame.data with
      | none => none
      | some (n1, res) => some (n1, [], res) := by
    unfold Node.sdo_handle
    rw [hstate]
  have hD : n.dispatch_sdo_request frame =
      some ({ n with block_size := frame.data.getD 2 0 },
        [] ++ [Node.genf { n with block_size := frame.data.getD 2 0 }
          (flatten [[0xC1 ||| ((7 - buf.length % 7) <<< 2)],
            to_le_bytes 2 (if n.need_crc then crc16_canopen_with_lut buf else 0),
            [0, 0, 0, 0, 0]])]) := by
    unfold Node.dispatch_sdo_request
    rw [hfilter, hlen8, hH, hC]
    norm_num
  refine ⟨{ n with block_size := frame.data.getD 2 0 },
    Node.genf { n with block_size := frame.data.getD 2 0 }
      (flatten [[0xC1 ||| ((7 - buf.length % 7) <<< 2)],
        to_le_bytes 2 (if n.need_crc then crc16_canopen_with_lut buf else 0),
        [0, 0, 0, 0, 0]]), ?_, ?_, ?_, ?_, ?_, ?_⟩
  · simpa using hD
  · exact hstate
  · exact hbuf
  · rfl
  · rfl
  · simp [Node.genf, genf_and_padding, flatten, to_le_bytes]

/-- C3 (witness): the confirm exchange of the source's
`test_block_upload_without_crc`: ack byte `0xCD`, zero CRC, state still
`ConfirmUploadSdoBlock`. -/
theorem confirm_block_upload_C3_witness :
    ∃ n2 f, c3_node.dispatch_sdo_request c3_frame = some (n2, [f]) ∧
      n2.sdo_state = .ConfirmUploadSdoBlock ∧
      n2.read_buf = some [0x91, 0x01, 0x0F, 0x00] ∧
      n2.block_size = c3_frame.data.getD 2 0 ∧
      f.cob_id = 0x580 ||| c3_node.node_id ∧
      f.data = [0xC1 ||| ((7 - [0x91, 0x01, 0x0F, 0x00].length % 7) <<< 2)] ++
        to_le_bytes 2 (if c3_node.need_crc then
          crc16_canopen_with_lut [0x91, 0x01, 0x0F, 0x00] else 0) ++
        [0, 0, 0, 0, 0] :=
  confirm_block_upload_C3 c3_node c3_frame [0x91, 0x01, 0x0F, 0x00]
    rfl rfl rfl rfl (by decide) (by decide) (by decide) (by decide)

/-! ## C9: array sub-index 0 -/

/-- The property C9 asserts of an array: sub-index 0 is a `Unsigned8`
entry whose single stored byte equals the largest populated
sub-index. -/
def array_sub0_invariant (a : ODArray) : Prop :=
  ∃ v, a.index_to_variable 0 = some v ∧ v.data_type = .Unsigned8 ∧
    v.default_value.length = 1 ∧
    ∃ k, (a.index_to_variable k).isSome ∧ v.default_value = [k] ∧
      ∀ j, (a.index_to_variable j).isSome → j ≤ k

/-- The prototype entry of a compact array section (what
`build_variable` produces for sub-index 1 from the section's own
properties). -/
def c9_proto : Variable :=
  { name := "MyArray", storage_location := "", data_type := .Unsigned8,
    default_value := [0], min := none, max := none, pdo_mappable := false,
    access_type := ⟨true, true⟩, parameter_value := none,
    index := 0x2000, sub_index := 1 }

/-- The array produced by ingesting a `CompactSubObj` section at
`0x2000`. -/
def c9_array : ODArray :=
  process_compact_array_section "MyArray" 0x2000 "" c9_proto

/-- C9 (counterexample): immediately after EDS ingestion of a
`CompactSubObj` array section the claimed invariant is already false:
sub-index 0 stores the four bytes `[0, 0, 0, 0]` (not a single byte),
even though sub-index 1 is populated. -/
theorem compact_array_sub0_cex_C9 :
    ¬ array_sub0_invariant c9_array ∧
    (c9_array.index_to_variable 0).map Variable.default_value =
      some [0, 0, 0, 0] ∧
    (c9_array.index_to_variable 1).isSome = true := by
  refine ⟨?_, rfl, rfl⟩
  rintro ⟨v, hv, _, hlen, _⟩
  have h0 : c9_array.index_to_variable 0 = some (compact_sub0 0x2000) := rfl
  have hveq : compact_sub0 0x2000 = v := by
    have := h0.symm.trans hv
    exact Option.some.inj this
  rw [← hveq] at hlen
  simp [compact_sub0, to_le_bytes] at hlen

/-- C9 (amended): the sub-index 0 entry of a `CompactSubObj` array is
declared `Unsigned8` but seeded with the 4-byte little-endian encoding
of `0u32`, and auto-materialising any absent sub-index other than 0
leaves the sub-index 0 entry untouched — nothing maintains it as the
largest populated sub-index. -/
theorem compact_array_sub0_C9 (nm st : String) (idx : Nat)
    (proto : Variable) (a a2 : ODArray) (si : Nat) (v : Variable)
    (hmat : a.get_mut_variable si = .ok (v, a2)) (hsi : si ≠ 0) :
    (process_compact_array_section nm idx st proto).index_to_variable 0 =
      some (compact_sub0 idx) ∧
    (compact_sub0 idx).data_type = .Unsigned8 ∧
    (compact_sub0 idx).default_value = to_le_bytes 4 0 ∧
    a2.index_to_variable 0 = a.index_to_variable 0 := by
  refine ⟨by simp [process_compact_array_section, ODArray.add_member,
    compact_sub0], rfl, rfl, ?_⟩
  unfold ODArray.get_mut_variable at hmat
  cases hfound : a.index_to_variable si with
  | some var =>
    rw [hfound] at hmat
    have h2 : a = a2 := congrArg Prod.snd (Except.ok.inj hmat)
    rw [← h2]
  | none =>
    rw [hfound] at hmat
    by_cases hrange : 0 < si ∧ si < 0xFF
    · rw [if_pos hrange] at hmat
      cases hbase : a.index_to_variable 1 with
      | some base_var =>
        rw [hbase] at hmat
        have h2 : ODArray.add_member a
            { base_var with
              name := a.name ++ "_" ++ toString si, sub_index := si } = a2 :=
          congrArg Prod.snd (Except.ok.inj hmat)
        rw [← h2]
        simp only [ODArray.add_member]
        rw [if_neg (Ne.symm hsi)]
      | none => rw [hbase] at hmat; exact absurd hmat (by simp)
    · rw [if_neg hrange] at hmat
      exact absurd hmat (by simp)

/-- The array after auto-materialising the absent sub-index 5 of
`c9_array`. -/
def c9_array2 : ODArray :=
  match c9_array.get_mut_variable 5 with
  | .ok (_, a2) => a2
  | .error _ => c9_array

/-- The variable synthesised for sub-index 5 of `c9_array`. -/
def c9_var5 : Variable :=
  match c9_array.get_mut_variable 5 with
  | .ok (v, _) => v
  | .error _ => c9_proto

/-- C9 (witness): materialising sub-index 5 of the compact array leaves
the 4-byte zero entry at sub-index 0 unchanged. -/
theorem compact_array_sub0_C9_witness :
    c9_array.index_to_variable 0 = some (compact_sub0 0x2000) ∧
    (compact_sub0 0x2000).data_type = .Unsigned8 ∧
    (compact_sub0 0x2000).default_value = to_le_bytes 4 0 ∧
    c9_array2.index_to_variable 0 = c9_array.index_to_variable 0 :=
  compact_array_sub0_C9 "MyArray" "" 0x2000 c9_proto c9_array c9_array2 5
    c9_var5 rfl (by decide)

/-! ## C7: NMT reset restores the backup -/

/-- C7: processing the NMT frame `(0x81, node_id)` puts the node in
`Init` and restores the object directory entry-for-entry to the backup
snapshot taken at construction (entries absent from the backup are
dropped), rebuilding `name_to_index` to the names whose index survived.
The hypothesis `hsup` states that every backup index is still present in
the live directory — true from construction onwards, since entries are
never removed. -/
theorem nmt_reset_restores_backup_C7 (n : Node) (frame : CanFrame)
    (hdata : frame.data = [0x81, n.node_id])
    (hsup : ∀ k, (n.backup_od.index_to_object k).isSome →
      (n.object_directory.index_to_object k).isSome) :
    ∃ n2, n.process_nmt_frame frame = some (n2, []) ∧
      n2.state = .Init ∧
      (∀ k, n2.object_directory.index_to_object k =
        n.backup_od.index_to_object k) ∧
      (∀ s, n2.object_directory.name_to_index s =
        match n.object_directory.name_to_index s with
        | some idx =>
          if (n.backup_od.index_to_object idx).isSome then some idx else none
        | none => none) := by
  have hframe : n.process_nmt_frame frame =
      some (({ n with state := .Init }).reset, []) := by
    unfold Node.process_nmt_frame
    rw [hdata]
    simp only [List.length_cons, List.length_nil, List.getD]
    rw [if_neg (by norm_num)]
    rw [if_neg (by simp)]
    rfl
  have hmap : ∀ k, (({ n with state := .Init }).reset).object_directory.index_to_object k =
      n.backup_od.index_to_object k := by
    intro k
    unfold Node.reset Node.reset_object_directory_range
    simp only []
    by_cases hk : (n.object_directory.index_to_object k).isSome
    · rw [if_pos ⟨hk, Or.inl (by simp)⟩]
    · rw [if_neg (by simp [hk])]
      cases hb : n.backup_od.index_to_object k with
      | some o =>
        have := hsup k (by simp [hb])
        exact absurd this hk
      | none =>
        cases ho : n.object_directory.index_to_object k with
        | some o => exact absurd (by simp [ho]) hk
        | none => rfl
  refine ⟨_, hframe, rfl, hmap, ?_⟩
  intro s
  have hretain : (({ n with state := .Init }).reset).object_directory.name_to_index s =
      match n.object_directory.name_to_index s with
      | some idx =>
        if ((({ n with state := .Init }).reset).object_directory.index_to_object idx).isSome
        then some idx else none
      | none => none := rfl
  rw [hretain]
  cases hs : n.object_directory.name_to_index s with
  | some idx =>
    simp only []
    rw [hmap idx]
  | none => rfl

/-- C7 (witness): resetting the fresh demo node restores its directory
to the backup. -/
theorem nmt_reset_restores_backup_C7_witness :
    ∃ n2, (fresh_node demo_od).process_nmt_frame ⟨0x000, [0x81, 2]⟩ =
        some (n2, []) ∧
      n2.state = .Init ∧
      (∀ k, n2.object_directory.index_to_object k =
        (fresh_node demo_od).backup_od.index_to_object k) ∧
      (∀ s, n2.object_directory.name_to_index s =
        match (fresh_node demo_od).object_directory.name_to_index s with
        | some idx =>
          if ((fresh_node demo_od).backup_od.index_to_object idx).isSome
          then some idx else none
        | none => none) :=
  nmt_reset_restores_backup_C7 (fresh_node demo_od) ⟨0x000, [0x81, 2]⟩
    rfl (fun _ h => h)

/-! ## C4: PDO slot re-derivation after SDO writes -/

/-- The PDO slot affected by a write to `index` (`Node::update`'s slot
selection: RPDO slots for `0x14xx..0x17xx`, TPDO slots otherwise). -/
def Node.pdo_slot (n : Node) (index : Nat) : PdoObject :=
  if index >>> 8 < 0x18 then n.pdo_objects.rpdos (index &&& 0xF)
  else n.pdo_objects.tpdos (index &&& 0xF)

/-- Post-condition of a successful `Node::update` on a variable in the
PDO parameter range: a communication-parameter write always registers
the slot's (new) COB-ID in `cob_to_index`, and a write to sub-index 0 of
a mapping table recomputes `total_length` as the (wrapping `u8`) sum of
the first `num_of_map_objs` mapping lengths, checked against 64. -/
theorem update_registers_slot (n n2 : Node) (var : Variable)
    (h : n.update var = some (n2, .ok ()))
    (hrange : 0x14 ≤ var.index >>> 8 ∧ var.index >>> 8 < 0x1C) :
    ((var.index >>> 8) % 4 < 2 →
      n2.pdo_objects.cob_to_index (n2.pdo_slot var.index).cob_id =
        some (var.index &&& 0xF)) ∧
    (2 ≤ (var.index >>> 8) % 4 → var.sub_index = 0 →
      (n2.pdo_slot var.index).total_length =
        map_total_length (n2.pdo_slot var.index).mappings
          (n2.pdo_slot var.index).num_of_map_objs ∧
      (n2.pdo_slot var.index).total_length ≤ 64) := by
  unfold Node.update at h
  simp only [] at h
  rw [if_neg (by omega)] at h
  by_cases hx : var.index &&& 0xF ≥ 4
  · rw [if_pos hx] at h
    exact absurd h (by simp)
  · rw [if_neg hx] at h
    by_cases hcomm : (var.index >>> 8) % 4 < 2
    · rw [if_pos hcomm] at h
      have hn2 : _ = n2 := congrArg Prod.fst (Option.some.inj h)
      constructor
      · intro _
        rw [← hn2]
        by_cases ht18 : var.index >>> 8 < 0x18 <;>
          simp [Node.pdo_slot, ht18]
      · intro h2 _
        omega
    · rw [if_neg hcomm] at h
      cases hm : (if var.index >>> 8 < 0x18 then
          n.pdo_objects.rpdos (var.index &&& 0xF)
        else n.pdo_objects.tpdos (var.index &&& 0xF)).update_map_params var with
      | none => rw [hm] at h; exact absurd h (by simp)
      | some pdo2 =>
        rw [hm] at h
        simp only [] at h
        by_cases hsub : var.sub_index = 0
        · rw [if_pos hsub] at h
          cases hcheck : check_map_subs (if var.index >>> 8 < 0x18 then
              { n with pdo_objects := { n.pdo_objects with
                  rpdos := fun i => if i = (var.index &&& 0xF) then pdo2
                    else n.pdo_objects.rpdos i } }
            else
              { n with pdo_objects := { n.pdo_objects with
                  tpdos := fun i => if i = (var.index &&& 0xF) then pdo2
                    else n.pdo_objects.tpdos i } }).object_directory
            var.index
            ((List.range pdo2.num_of_map_objs).reverse.map (· + 1)) with
          | mk od2 all_ok =>
            rw [hcheck] at h
            simp only [] at h
            cases all_ok with
            | false => simp at h
            | true =>
              rw [if_neg (by simp)] at h
              by_cases htot : map_total_length pdo2.mappings
                  pdo2.num_of_map_objs > MAX_PDO_MAPPING_LENGTH
              · rw [if_pos htot] at h
                exact absurd h (by simp)
              · rw [if_neg htot] at h
                have hn2 : _ = n2 := congrArg Prod.fst (Option.some.inj h)
                refine ⟨fun hc => absurd hc (by omega), fun _ _ => ?_⟩
                rw [← hn2]
                by_cases ht18 : var.index >>> 8 < 0x18 <;>
                  simp only [Node.pdo_slot, ht18, if_true, if_false,
                    MAX_PDO_MAPPING_LENGTH] at htot ⊢ <;>
                  simp [if_pos rfl] <;>
                  omega
        · rw [if_neg hsub] at h
          exact ⟨fun hc => absurd hc (by omega), fun _ hs => absurd hs hsub⟩

/-- A successful `ObjectDirectory::set_value` stores exactly the given
bytes in the returned variable. -/
theorem set_value_ok_default (od od2 : ObjectDirectory)
    (index sub_index : Nat) (data : List Nat) (ig : Bool) (var : Variable)
    (h : od.set_value index sub_index data ig = (od2, .ok var)) :
    var.default_value = data := by
  unfold ObjectDirectory.set_value at h
  split at h
  · simp at h
  · rename_i od1 var1 heq
    split at h
    · simp at h
    · split at h
      · split at h <;> simp at h
      · have hv : _ = var := congrArg Prod.snd h |> Except.ok.inj
        rw [← hv]

/-- C4 (amended): after every successful `set_value_with_check` whose
request index lies in `0x1400..=0x1BFF`, the written variable `var2`
holds the request bytes and the affected slot satisfies: a
communication-parameter write (`t % 4 < 2`) registers the slot's COB-ID
in `cob_to_index` *unconditionally* — whether or not `is_pdo_valid`
holds — and a write to sub-index 0 of a mapping table recomputes
`total_length` as the wrapping `u8` sum of the first `num_of_map_objs`
mapping bit lengths, bounded by 64.  (Writes to mapping sub-indices
≥ 1 leave `total_length` untouched, and an invalid slot remains
registered, refuting the claim's other halves.) -/
theorem set_value_with_check_pdo_C4 (n n2 : Node) (index sub_index : Nat)
    (data : List Nat)
    (hrange : 0x1400 ≤ index ∧ index ≤ 0x1BFF)
    (hok : n.set_value_with_check index sub_index data = some (n2, .ok ())) :
    ∃ var2 : Variable, var2.default_value = data ∧
      (0x14 ≤ var2.index >>> 8 ∧ var2.index >>> 8 < 0x1C →
        ((var2.index >>> 8) % 4 < 2 →
          n2.pdo_objects.cob_to_index (n2.pdo_slot var2.index).cob_id =
            some (var2.index &&& 0xF)) ∧
        (2 ≤ (var2.index >>> 8) % 4 → var2.sub_index = 0 →
          (n2.pdo_slot var2.index).total_length =
            map_total_length (n2.pdo_slot var2.index).mappings
              (n2.pdo_slot var2.index).num_of_map_objs ∧
          (n2.pdo_slot var2.index).total_length ≤ 64)) := by
  unfold Node.set_value_with_check at hok
  simp only [] at hok
  split at hok
  · simp at hok
  · rename_i n1 heq
    split at hok
    · simp at hok
    · rename_i od2 var heq2
      rw [if_pos hrange] at hok
      exact ⟨var, set_value_ok_default _ _ _ _ _ _ _ heq2,
        fun hr => update_registers_slot _ _ _ hok hr⟩

/-- The COB-ID communication parameter `0x1400:01` (`Unsigned32`, rw). -/
def c4a_var : Variable :=
  { name := "COB-ID RPDO1", storage_location := "",
    data_type := .Unsigned32, default_value := [0x02, 0x02, 0, 0],
    min := none, max := none, pdo_mappable := false,
    access_type := ⟨true, true⟩, parameter_value := none,
    index := 0x1400, sub_index := 1 }

/-- A directory holding the RPDO1 communication record. -/
def c4a_od : ObjectDirectory :=
  { node_id := 2,
    index_to_object := fun k =>
      if k = 0x1400 then
        some (.record {
          name := "RPDO1 comm", index := 0x1400, storage_location := "",
          index_to_variable := fun si => if si = 1 then some c4a_var else none,
          name_to_index := fun _ => none })
      else none,
    name_to_index := fun _ => none }

/-- The node after writing COB-ID `0x80000202` (bit 31 set: PDO invalid)
to `0x1400:01`. -/
def c4a_node1 : Node :=
  match (fresh_node c4a_od).set_value_with_check 0x1400 1
      [0x02, 0x02, 0x00, 0x80] with
  | some (m, .ok _) => m
  | _ => fresh_node c4a_od

/-- A mappable application variable `0x6000:00`. -/
def c4b_target : Variable :=
  { name := "AppByte", storage_location := "", data_type := .Unsigned8,
    default_value := [0], min := none, max := none, pdo_mappable := true,
    access_type := ⟨true, true⟩, parameter_value := none,
    index := 0x6000, sub_index := 0 }

/-- The mapping-table entry `0x1600:01` (`Unsigned32`, rw). -/
def c4b_var : Variable :=
  { name := "RPDO1 mapping 1", storage_location := "",
    data_type := .Unsigned32, default_value := [0x08, 0x00, 0x00, 0x60],
    min := none, max := none, pdo_mappable := false,
    access_type := ⟨true, true⟩, parameter_value := none,
    index := 0x1600, sub_index := 1 }

/-- A directory with the RPDO1 mapping record and the mappable target. -/
def c4b_od : ObjectDirectory :=
  { node_id := 2,
    index_to_object := fun k =>
      if k = 0x1600 then
        some (.record {
          name := "RPDO1 mapping", index := 0x1600, storage_location := "",
          index_to_variable := fun si => if si = 1 then some c4b_var else none,
          name_to_index := fun _ => none })
      else if k = 0x6000 then
        some (.variable c4b_target)
      else none,
    name_to_index := fun _ => none }

/-- A node whose RPDO slot 0 maps one 8-bit object with
`total_length = 8`. -/
def c4b_slot0 : PdoObject :=
  { default_rpdo with
    num_of_map_objs := 1
    mappings := fun i => if i = 0 then (0x6000, 0, 8) else (0, 0, 0)
    total_length := 8 }

def c4b_node : Node :=
  { fresh_node c4b_od with
    pdo_objects := { PdoObjects.new with rpdos := fun _ => c4b_slot0 } }

/-- The node after rewriting mapping `0x1600:01` to a 16-bit entry. -/
def c4b_node1 : Node :=
  match c4b_node.set_value_with_check 0x1600 1 [0x10, 0x00, 0x00, 0x60] with
  | some (m, .ok _) => m
  | _ => c4b_node

/-- C4 (counterexample): two successful SDO downloads into
`0x1400..=0x1BFF` violating the claim.  (a) Writing a COB-ID with
bit 31 set makes the slot invalid, yet `cob_to_index` still maps the
slot's COB-ID to the slot — the claimed "iff `is_pdo_valid`" fails.
(b) Rewriting mapping sub-index 1 from 8 to 16 bits leaves
`total_length = 8` while the mapping bit lengths sum to 16 — the claimed
sum equality fails. -/
theorem set_value_with_check_pdo_cex_C4 :
    ((fresh_node c4a_od).set_value_with_check 0x1400 1
        [0x02, 0x02, 0x00, 0x80]).map
      (fun p => match p.2 with | .ok _ => true | .error _ => false) =
        some true ∧
    c4a_node1.pdo_objects.cob_to_index
      ((c4a_node1.pdo_objects.rpdos 0).cob_id) = some 0 ∧
    (c4a_node1.pdo_objects.rpdos 0).is_pdo_valid = false ∧
    (c4b_node.set_value_with_check 0x1600 1 [0x10, 0x00, 0x00, 0x60]).map
      (fun p => match p.2 with | .ok _ => true | .error _ => false) =
        some true ∧
    (c4b_node1.pdo_objects.rpdos 0).total_length = 8 ∧
    ((List.range (c4b_node1.pdo_objects.rpdos 0).num_of_map_objs).map
      (fun i => ((c4b_node1.pdo_objects.rpdos 0).mappings i).2.2)).sum = 16 := by
  decide

/-- C4 (witness): the amended post-condition at the concrete COB-ID
write that disables RPDO1. -/
theorem set_value_with_check_pdo_C4_witness :
    ∃ var2 : Variable, var2.default_value = [0x02, 0x02, 0x00, 0x80] ∧
      (0x14 ≤ var2.index >>> 8 ∧ var2.index >>> 8 < 0x1C →
        ((var2.index >>> 8) % 4 < 2 →
          c4a_node1.pdo_objects.cob_to_index
            (c4a_node1.pdo_slot var2.index).cob_id =
            some (var2.index &&& 0xF)) ∧
        (2 ≤ (var2.index >>> 8) % 4 → var2.sub_index = 0 →
          (c4a_node1.pdo_slot var2.index).total_length =
            map_total_length (c4a_node1.pdo_slot var2.index).mappings
              (c4a_node1.pdo_slot var2.index).num_of_map_objs ∧
          (c4a_node1.pdo_slot var2.index).total_length ≤ 64)) :=
  set_value_with_check_pdo_C4 (fresh_node c4a_od) c4a_node1 0x1400 1
    [0x02, 0x02, 0x00, 0x80] (by decide) rfl

/-! ## C5: SDO buffers along reachable states -/

/-- The property C5 asserts of a node: some buffer is `Some` with
non-empty contents iff the SDO state is not `Normal`, and both buffers
are `None` in `Normal` state. -/
def sdo_buffers_claim (n : Node) : Prop :=
  ((∃ b, (n.read_buf = some b ∨ n.write_buf = some b) ∧ b ≠ []) ↔
    n.sdo_state ≠ .Normal) ∧
  (n.sdo_state = .Normal → n.read_buf = none ∧ n.write_buf = none)

/-- The invariant that actually holds: upload states own a (possibly
empty) `read_buf`, download states own a (possibly empty) `write_buf`. -/
def sdo_buffer_invariant (n : Node) : Prop :=
  ((n.sdo_state = .SdoSegmentUpload ∨ n.sdo_state = .StartSdoBlockUpload ∨
      n.sdo_state = .ConfirmUploadSdoBlock) → n.read_buf.isSome) ∧
  ((n.sdo_state = .SdoSegmentDownload ∨ n.sdo_state = .DownloadSdoBlock ∨
      n.sdo_state = .EndSdoBlockDownload) → n.write_buf.isSome)

/-- The field values `Node::new` assigns (`src/node.rs`); the object
directory, its backup and the PDO table are whatever construction
produced. -/
def Node.is_fresh (n : Node) : Prop :=
  n.sdo_state = .Normal ∧ n.read_buf = none ∧ n.read_buf_index = 0 ∧
  n.write_buf = none ∧ n.reserved_index = 0 ∧ n.reserved_sub_index = 0 ∧
  n.write_data_size = 0 ∧ n.need_crc = false ∧ n.block_size = 0x7F ∧
  n.current_seq_number = 0 ∧ n.next_read_toggle = 0 ∧
  n.crc_enabled = true ∧ n.sync_count = 0 ∧ n.event_count = 0 ∧
  n.state = .Init ∧ n.error_count = 0 ∧ n.heartbeats = 0 ∧
  n.heartbeats_timer = 0

/-- One SDO-processing step: the node consumed some request frame
without panicking. -/
def sdo_step (m m2 : Node) : Prop :=
  ∃ frame, (m.dispatch_sdo_request frame).map Prod.fst = some m2

/-- States reachable from `n0` by processing SDO request frames. -/
def sdo_reachable (n0 : Node) : Node → Prop :=
  Relation.ReflTransGen sdo_step n0

theorem inv_of_normal (x : Node) (hx : x.sdo_state = .Normal) :
    sdo_buffer_invariant x := by
  constructor <;> intro hc <;> rw [hx] at hc <;>
    rcases hc with h | h | h <;> simp at h

theorem upload_segment_inv (m n1 : Node) (cmd : Nat) (f : CanFrame)
    (h : m.upload_segment cmd = some (n1, .ok f))
    (hstate : m.sdo_state = .SdoSegmentUpload) :
    sdo_buffer_invariant n1 := by
  unfold Node.upload_segment at h
  split at h
  · simp at h
  · split at h
    · rename_i buffer heq
      simp only [] at h
      split at h
      · simp at h
      · split at h
        · have hn1 : _ = n1 := congrArg Prod.fst (Option.some.inj h)
          rw [← hn1]
          constructor <;> intro hc <;>
            simp_all [sdo_buffer_invariant, heq]
        · have hn1 : _ = n1 := congrArg Prod.fst (Option.some.inj h)
          rw [← hn1]
          exact inv_of_normal _ rfl
    · simp at h

/-- The mapping pre-check only ever touches the object directory. -/
theorem svwc_precheck_preserves (n : Node) (index sub_index : Nat)
    (data : List Nat) :
    (n.svwc_precheck index sub_index data).1.sdo_state = n.sdo_state ∧
    (n.svwc_precheck index sub_index data).1.read_buf = n.read_buf ∧
    (n.svwc_precheck index sub_index data).1.write_buf = n.write_buf := by
  unfold Node.svwc_precheck
  split
  · split
    · split
      · exact ⟨rfl, rfl, rfl⟩
      · simp only []
        split
        · split
          · exact ⟨rfl, rfl, rfl⟩
          · split
            · exact ⟨rfl, rfl, rfl⟩
            · exact ⟨rfl, rfl, rfl⟩
        · exact ⟨rfl, rfl, rfl⟩
    · exact ⟨rfl, rfl, rfl⟩
  · exact ⟨rfl, rfl, rfl⟩

/-- `Node::update` only ever touches the object directory and the PDO
table. -/
theorem update_preserves (n n2 : Node) (var : Variable)
    (r : Except CanAbortCode Unit) (h : n.update var = some (n2, r)) :
    n2.sdo_state = n.sdo_state ∧ n2.read_buf = n.read_buf ∧
    n2.write_buf = n.write_buf := by
  unfold Node.update at h
  simp only [] at h
  by_cases h1 : var.index >>> 8 < 0x14 ∨ var.index >>> 8 ≥ 0x1C
  · rw [if_pos h1] at h
    have hn : _ = n2 := congrArg Prod.fst (Option.some.inj h)
    rw [← hn]; exact ⟨rfl, rfl, rfl⟩
  · rw [if_neg h1] at h
    by_cases hx : var.index &&& 0xF ≥ 4
    · rw [if_pos hx] at h
      exact absurd h (by simp)
    · rw [if_neg hx] at h
      by_cases hcomm : (var.index >>> 8) % 4 < 2
      · rw [if_pos hcomm] at h
        have hn : _ = n2 := congrArg Prod.fst (Option.some.inj h)
        rw [← hn]
        by_cases ht : var.index >>> 8 < 0x18 <;> simp [ht]
      · rw [if_neg hcomm] at h
        cases hm : (if var.index >>> 8 < 0x18 then
            n.pdo_objects.rpdos (var.index &&& 0xF)
          else n.pdo_objects.tpdos (var.index &&& 0xF)).update_map_params var with
        | none => rw [hm] at h; exact absurd h (by simp)
        | some pdo2 =>
          rw [hm] at h
          simp only [] at h
          by_cases hsub : var.sub_index = 0
          · rw [if_pos hsub] at h
            cases hcheck : check_map_subs (if var.index >>> 8 < 0x18 then
                { n with pdo_objects := { n.pdo_objects with
                    rpdos := fun i => if i = (var.index &&& 0xF) then pdo2
                      else n.pdo_objects.rpdos i } }
              else
                { n with pdo_objects := { n.pdo_objects with
                    tpdos := fun i => if i = (var.index &&& 0xF) then pdo2
                      else n.pdo_objects.tpdos i } }).object_directory
              var.index
              ((List.range pdo2.num_of_map_objs).reverse.map (· + 1)) with
            | mk od2 all_ok =>
              rw [hcheck] at h
              simp only [] at h
              cases all_ok with
              | false =>
                rw [if_pos (by simp)] at h
                have hn : _ = n2 := congrArg Prod.fst (Option.some.inj h)
                rw [← hn]
                by_cases ht : var.index >>> 8 < 0x18 <;> simp [ht]
              | true =>
                rw [if_neg (by simp)] at h
                by_cases htot : map_total_length pdo2.mappings
                    pdo2.num_of_map_objs > MAX_PDO_MAPPING_LENGTH
                · rw [if_pos htot] at h
                  have hn : _ = n2 := congrArg Prod.fst (Option.some.inj h)
                  rw [← hn]
                  by_cases ht : var.index >>> 8 < 0x18 <;> simp [ht]
                · rw [if_neg htot] at h
                  have hn : _ = n2 := congrArg Prod.fst (Option.some.inj h)
                  rw [← hn]
                  by_cases ht : var.index >>> 8 < 0x18 <;> simp [ht]
          · rw [if_neg hsub] at h
            have hn : _ = n2 := congrArg Prod.fst (Option.some.inj h)
            rw [← hn]
            by_cases ht : var.index >>> 8 < 0x18 <;> simp [ht]

/-- `Node::set_value_with_check` never touches the SDO state or the
transfer buffers, whatever its verdict. -/
theorem svwc_preserves (n n2 : Node) (index sub_index : Nat)
    (data : List Nat) (r : Except CanAbortCode Unit)
    (h : n.set_value_with_check index sub_index data = some (n2, r)) :
    n2.sdo_state = n.sdo_state ∧ n2.read_buf = n.read_buf ∧
    n2.write_buf = n.write_buf := by
  have hfields := svwc_precheck_preserves n index sub_index data
  unfold Node.set_value_with_check at h
  split at h
  · rename_i n1 code heq
    rw [heq] at hfields
    have hn : n1 = n2 := congrArg Prod.fst (Option.some.inj h)
    rw [← hn]; exact hfields
  · rename_i n1 heq
    rw [heq] at hfields
    split at h
    · rename_i od2 code hsv
      have hn : _ = n2 := congrArg Prod.fst (Option.some.inj h)
      rw [← hn]; exact hfields
    · rename_i od2 var hsv
      split at h
      · have hupd := update_preserves _ _ _ _ h
        exact ⟨hupd.1.trans hfields.1, hupd.2.1.trans hfields.2.1,
          hupd.2.2.trans hfields.2.2⟩
      · split at h
        · have hn : _ = n2 := congrArg Prod.fst (Option.some.inj h)
          rw [← hn]; exact hfields
        · have hn : _ = n2 := congrArg Prod.fst (Option.some.inj h)
          rw [← hn]; exact hfields

/-- A successful `initiate_upload` leaves either the `Normal` state
(expedited) or a loaded `read_buf` in `SdoSegmentUpload`. -/
theorem initiate_upload_inv (m a : Node) (index sub_index : Nat)
    (f : CanFrame) (hstate : m.sdo_state = .Normal)
    (h : m.initiate_upload index sub_index = some (a, .ok f)) :
    sdo_buffer_invariant a := by
  unfold Node.initiate_upload at h
  split at h
  · simp at h
  · rename_i od2 var heq
    simp only [] at h
    split at h
    · split at h
      · exact absurd h (by simp)
      · have h1 : _ = a := congrArg Prod.fst (Option.some.inj h)
        apply inv_of_normal
        rw [← h1]
        exact hstate
    · have h1 : _ = a := congrArg Prod.fst (Option.some.inj h)
      rw [← h1]
      constructor
      · intro _; rfl
      · intro hc; simp at hc

/-- A successful `initiate_download` leaves either the `Normal` state
(expedited commit) or a fresh empty `write_buf` in
`SdoSegmentDownload`. -/
theorem initiate_download_inv (m a : Node) (index sub_index : Nat)
    (req : List Nat) (f : CanFrame) (hstate : m.sdo_state = .Normal)
    (h : m.initiate_download index sub_index req = some (a, .ok f)) :
    sdo_buffer_invariant a := by
  unfold Node.initiate_download at h
  simp only [] at h
  split at h
  · split at h
    · exact absurd h (by simp)
    · simp at h
    · rename_i n1 u heq
      have h1 : _ = a := congrArg Prod.fst (Option.some.inj h)
      apply inv_of_normal
      rw [← h1]
      rw [(svwc_preserves _ _ _ _ _ _ heq).1]
      exact hstate
  · have h1 : _ = a := congrArg Prod.fst (Option.some.inj h)
    rw [← h1]
    constructor
    · intro hc; split at hc <;> simp at hc
    · intro _; split <;> rfl

/-- A successful `init_block_download` always opens an empty `write_buf`
in `DownloadSdoBlock`. -/
theorem init_block_download_inv (m a : Node) (index sub_index : Nat)
    (req : List Nat) (f : CanFrame)
    (h : m.init_block_download index sub_index req = some (a, .ok f)) :
    sdo_buffer_invariant a := by
  unfold Node.init_block_download at h
  simp only [] at h
  have h1 : _ = a := congrArg Prod.fst (Option.some.inj h)
  rw [← h1]
  constructor
  · intro hc; simp at hc
  · intro _; rfl

/-- A successful `init_block_upload` always loads `read_buf` in
`StartSdoBlockUpload`. -/
theorem init_block_upload_inv (m a : Node) (index sub_index : Nat)
    (req : List Nat) (f : CanFrame)
    (h : m.init_block_upload index sub_index req = some (a, .ok f)) :
    sdo_buffer_invariant a := by
  unfold Node.init_block_upload at h
  simp only [] at h
  split at h
  · simp at h
  · split at h
    · simp at h
    · split at h
      · simp at h
      · rename_i od2 var heq
        have h1 : _ = a := congrArg Prod.fst (Option.some.inj h)
        rw [← h1]
        constructor
        · intro _; rfl
        · intro hc; simp at hc

/-- A successful `block_download` keeps a loaded `write_buf`, staying in
`DownloadSdoBlock` mid-block or moving to `EndSdoBlockDownload` on the
last sub-block. -/
theorem block_download_inv (m a : Node) (req : List Nat) (f : CanFrame)
    (hstate : m.sdo_state = .DownloadSdoBlock)
    (h : m.block_download req = some (a, .ok f)) :
    sdo_buffer_invariant a := by
  unfold Node.block_download at h
  simp only [] at h
  split at h
  · simp at h
  · split at h
    · rename_i buf heq
      split at h
      · split at h
        · exact absurd h (by simp)
        · simp at h
        · rename_i n4 u heq2
          have h1 : _ = a := congrArg Prod.fst (Option.some.inj h)
          have hp := svwc_preserves _ _ _ _ _ _ heq2
          rw [← h1]
          constructor
          · intro hc; simp at hc
          · intro _; simp [hp.2.2]
      · have h1 : _ = a := congrArg Prod.fst (Option.some.inj h)
        rw [← h1]
        constructor
        · intro hc; simp [hstate] at hc
        · intro _; rfl
    · simp at h

/-- A successful `start_block_upload` keeps the loaded `read_buf` and
moves to `ConfirmUploadSdoBlock`. -/
theorem start_block_upload_inv (m a : Node) (req : List Nat)
    (eager : List CanFrame) (f : CanFrame)
    (h : m.start_block_upload req = some (a, eager, .ok f)) :
    sdo_buffer_invariant a := by
  unfold Node.start_block_upload at h
  simp only [] at h
  split at h
  · simp at h
  · split at h
    · exact absurd h (by simp)
    · rename_i buf heq
      split at h
      · exact absurd h (by simp)
      · have h1 : _ = a := congrArg Prod.fst (Option.some.inj h)
        rw [← h1]
        constructor
        · intro _; simp [heq]
        · intro hc; simp at hc

/-- A successful `confirm_block_upload` keeps the loaded `read_buf` and
stays in `ConfirmUploadSdoBlock`. -/
theorem confirm_block_upload_inv (m a : Node) (req : List Nat)
    (f : CanFrame) (hstate : m.sdo_state = .ConfirmUploadSdoBlock)
    (h : m.confirm_block_upload req = some (a, .ok f)) :
    sdo_buffer_invariant a := by
  unfold Node.confirm_block_upload at h
  simp only [] at h
  split at h
  · simp at h
  · split at h
    · exact absurd h (by simp)
    · rename_i buf heq
      split at h
      · exact absurd h (by simp)
      · split at h
        · simp at h
        · have h1 : _ = a := congrArg Prod.fst (Option.some.inj h)
          rw [← h1]
          constructor
          · intro _; simp [heq]
          · intro hc; simp [hstate] at hc

/-- Whenever the state dispatch of `dispatch_sdo_request` succeeds with
an `Ok` reply, the resulting node satisfies the buffer invariant. -/
theorem sdo_handle_inv (m a : Node) (frame : CanFrame)
    (eager : List CanFrame) (f : CanFrame)
    (h : m.sdo_handle frame = some (a, eager, .ok f)) :
    sdo_buffer_invariant a := by
  unfold Node.sdo_handle at h
  simp only [] at h
  split at h
  · split at h
    · exact absurd h (by simp)
    · rename_i p res heq
      have h1 : _ = a := congrArg Prod.fst (Option.some.inj h)
      rw [← h1]
      exact inv_of_normal _ rfl
  · rename_i hstate
    split at h
    · exact absurd h (by simp)
    · rename_i p res heq
      have t := Option.some.inj h
      have h1 : _ = a := congrArg Prod.fst t
      have h3 : _ = Except.ok f := congrArg (fun q => q.2.2) t
      rw [← h1]
      exact upload_segment_inv m p _ f (by rw [← h3]; exact heq) hstate
  · rename_i hstate
    split at h
    · exact absurd h (by simp)
    · rename_i p res heq
      have t := Option.some.inj h
      have h1 : _ = a := congrArg Prod.fst t
      have h3 : _ = Except.ok f := congrArg (fun q => q.2.2) t
      rw [← h1]
      exact block_download_inv m p frame.data f hstate (by rw [← h3]; exact heq)
  · split at h
    · exact absurd h (by simp)
    · rename_i p res heq
      have h1 : _ = a := congrArg Prod.fst (Option.some.inj h)
      rw [← h1]
      exact inv_of_normal _ rfl
  · exact start_block_upload_inv m a frame.data eager f h
  · rename_i hstate
    split at h
    · exact absurd h (by simp)
    · rename_i p res heq
      have t := Option.some.inj h
      have h1 : _ = a := congrArg Prod.fst t
      have h3 : _ = Except.ok f := congrArg (fun q => q.2.2) t
      rw [← h1]
      exact confirm_block_upload_inv m p frame.data f hstate (by rw [← h3]; exact heq)
  · rename_i hstate
    split at h
    · split at h
      · exact absurd h (by simp)
      · rename_i p res heq
        have t := Option.some.inj h
        have h1 : _ = a := congrArg Prod.fst t
        have h3 : _ = Except.ok f := congrArg (fun q => q.2.2) t
        rw [← h1]
        exact initiate_download_inv m p _ _ frame.data f hstate (by rw [← h3]; exact heq)
    · split at h
      · exact absurd h (by simp)
      · rename_i p res heq
        have t := Option.some.inj h
        have h1 : _ = a := congrArg Prod.fst t
        have h3 : _ = Except.ok f := congrArg (fun q => q.2.2) t
        rw [← h1]
        exact initiate_upload_inv m p _ _ f hstate (by rw [← h3]; exact heq)
    · split at h
      · exact absurd h (by simp)
      · rename_i p res heq
        have t := Option.some.inj h
        have h1 : _ = a := congrArg Prod.fst t
        have h3 : _ = Except.ok f := congrArg (fun q => q.2.2) t
        rw [← h1]
        exact init_block_download_inv m p _ _ frame.data f (by rw [← h3]; exact heq)
    · split at h
      · exact absurd h (by simp)
      · rename_i p res heq
        have t := Option.some.inj h
        have h1 : _ = a := congrArg Prod.fst t
        have h3 : _ = Except.ok f := congrArg (fun q => q.2.2) t
        rw [← h1]
        exact init_block_upload_inv m p _ _ frame.data f (by rw [← h3]; exact heq)
    · simp at h

/-- Processing any SDO request frame preserves the buffer invariant. -/
theorem dispatch_inv (m a : Node) (frame : CanFrame) (fs : List CanFrame)
    (hinv : sdo_buffer_invariant m)
    (h : m.dispatch_sdo_request frame = some (a, fs)) :
    sdo_buffer_invariant a := by
  unfold Node.dispatch_sdo_request at h
  split at h
  · have h1 : _ = a := congrArg Prod.fst (Option.some.inj h)
    rw [← h1]; exact hinv
  · split at h
    · exact absurd h (by simp)
    · simp only [] at h
      split at h
      · exact absurd h (by simp)
      · rename_i p eager f heq
        have h1 : _ = a := congrArg Prod.fst (Option.some.inj h)
        rw [← h1]
        exact sdo_handle_inv _ _ _ _ _ heq
      · rename_i p eager code heq
        have h1 : _ = a := congrArg Prod.fst (Option.some.inj h)
        rw [← h1]
        exact inv_of_normal _ rfl

/-- C5: in every state reachable from a fresh node by processing SDO
request frames, each segmented- or block-upload state owns a loaded
(`Some`) `read_buf` and each download state a loaded `write_buf`.  The
buffers may be empty, and a buffer may survive the return to `Normal`
(see the counterexample to the spec's stronger emptiness claim). -/
theorem sdo_buffer_invariant_C5 (n0 n : Node) (h0 : n0.is_fresh)
    (hr : sdo_reachable n0 n) : sdo_buffer_invariant n := by
  induction hr with
  | refl => exact inv_of_normal n0 h0.1
  | tail hab hbc ih =>
    obtain ⟨frame, hf⟩ := hbc
    rename_i b c
    cases hd : b.dispatch_sdo_request frame with
    | none => rw [hd] at hf; exact absurd hf (by simp)
    | some p =>
      rw [hd] at hf
      have hc : p.1 = c := Option.some.inj hf
      rw [← hc]
      exact dispatch_inv b p.1 frame p.2 ih hd

/-- The segmented-download initiation request of the counterexample:
command byte `0x20` (ccs = 1, e = 0, s = 0) addressed to `0x1017:00`. -/
def c5_frame : CanFrame := ⟨0x602, [0x20, 0x17, 0x10, 0, 0, 0, 0, 0]⟩

/-- The node state after the fresh node processes `c5_frame`: mid
segmented download with an empty (`some []`) `write_buf`. -/
def c5_after : Node :=
  { fresh_node demo_od with
    sdo_state := .SdoSegmentDownload, write_buf := some [],
    reserved_index := 0x1017, reserved_sub_index := 0,
    write_data_size := 0 }

theorem c5_dispatch :
    (fresh_node demo_od).dispatch_sdo_request c5_frame =
      some (c5_after, [⟨0x582, [0x60, 0x17, 0x10, 0, 0, 0, 0, 0]⟩]) := rfl

/-- C5 (counterexample): one step after construction — a segmented
download initiation without the size flag — the node sits in
`SdoSegmentDownload` with `read_buf = none` and `write_buf = some []`,
so no buffer is non-empty although the SDO state is not `Normal`: the
claimed equivalence fails on a reachable state. -/
theorem sdo_buffers_claim_cex_C5 :
    ¬ (∀ n0 n : Node, n0.is_fresh → sdo_reachable n0 n →
        sdo_buffers_claim n) := by
  intro hall
  have hr : sdo_reachable (fresh_node demo_od) c5_after :=
    Relation.ReflTransGen.single ⟨c5_frame, by rw [c5_dispatch]; rfl⟩
  have hc := hall _ _ ⟨rfl, rfl, rfl, rfl, rfl, rfl, rfl, rfl, rfl, rfl,
    rfl, rfl, rfl, rfl, rfl, rfl, rfl, rfl⟩ hr
  have hne : c5_after.sdo_state ≠ .Normal := fun hN => SdoState.noConfusion hN
  obtain ⟨b, hb, hbne⟩ := hc.1.mpr hne
  rcases hb with hb | hb
  · exact Option.noConfusion hb
  · exact hbne (Option.some.inj hb).symm

/-- C5 (witness): the invariant instantiated at the state the fresh demo
node reaches by processing the segmented-download initiation. -/
theorem sdo_buffer_invariant_C5_witness :
    sdo_buffer_invariant c5_after :=
  sdo_buffer_invariant_C5 (fresh_node demo_od) c5_after
    ⟨rfl, rfl, rfl, rfl, rfl, rfl, rfl, rfl, rfl, rfl, rfl, rfl, rfl, rfl,
      rfl, rfl, rfl, rfl⟩
    (Relation.ReflTransGen.single ⟨c5_frame, by rw [c5_dispatch]; rfl⟩)
